import Mathlib

set_option maxRecDepth 8192

/-!
Shallow embedding of the `ai-traffic-analytics` pipeline core
(`src/app/...`) and verification of its specification claims.

Conventions of the embedding:
* Python `float` values that carry exact decimal/config data are modelled
  as `ℚ`; Python `int` as `ℤ` or `ℕ` where the source guarantees
  non-negativity.
* Python `dict` values are modelled as association lists
  (`List (κ × α)`) with insertion-order preserving update, mirroring
  CPython dict semantics.
* Timestamps (`datetime` objects rendered through `to_utc_iso`) are
  modelled by their epoch second (`ℤ`); ISO-8601 rendering of a UTC
  instant is injective, so equality of rendered strings coincides with
  equality of the modelled integers.
* Fallible Python code (raising) is modelled with `Except String`.
-/

namespace App

/-! ### Kernel-reducible rational arithmetic

The Batteries rational operations (`Rat.add`, `Rat.mul`, `Rat.sub`,
`Rat.inv`) are `@[irreducible]`, so terms built from them cannot be
evaluated by `decide`. The embedding therefore computes with the
following wrappers, each defined through `mkRat` (which reduces) and
provably equal to the corresponding standard operation. -/

def qAdd (a b : ℚ) : ℚ := mkRat (a.num * b.den + b.num * a.den) (a.den * b.den)

def qSub (a b : ℚ) : ℚ := mkRat (a.num * b.den - b.num * a.den) (a.den * b.den)

def qMul (a b : ℚ) : ℚ := mkRat (a.num * b.num) (a.den * b.den)

def qDiv (a b : ℚ) : ℚ :=
  mkRat (a.num * b.den * (if b.num < 0 then -1 else 1)) (a.den * b.num.natAbs)

def qMin (a b : ℚ) : ℚ := if a ≤ b then a else b

def qMax (a b : ℚ) : ℚ := if a ≤ b then b else a

/-- Floor of a rational (`ediv` by the positive denominator). -/
def qFloor (q : ℚ) : ℤ := q.num.ediv (q.den : ℤ)

/-- Code-point lexicographic comparison of character lists (the order
Python uses for `str` and SQLite for `TEXT`). -/
def charListLe : List Char → List Char → Bool
  | [], _ => true
  | _ :: _, [] => false
  | a :: as, b :: bs =>
    if a.toNat < b.toNat then true
    else if b.toNat < a.toNat then false
    else charListLe as bs

def strLe (a b : String) : Bool := charListLe a.data b.data

def strLt (a b : String) : Bool := strLe a b && !(a == b)

/-! ### Python-dict style association-list helpers -/

/-- `m.get(k)` on a Python dict modelled as an association list. -/
def alistGet? {κ α : Type} [BEq κ] (m : List (κ × α)) (k : κ) : Option α :=
  (m.find? (fun p => p.1 == k)).map Prod.snd

/-- `m.get(k, d)` on a Python dict. -/
def alistGetD {κ α : Type} [BEq κ] (m : List (κ × α)) (k : κ) (d : α) : α :=
  (alistGet? m k).getD d

/-- `m[k] = v` on a Python dict: update in place if the key exists,
otherwise append at the end (insertion order). -/
def alistSet {κ α : Type} [BEq κ] (m : List (κ × α)) (k : κ) (v : α) : List (κ × α) :=
  if m.any (fun p => p.1 == k) then
    m.map (fun p => if p.1 == k then (k, v) else p)
  else
    m ++ [(k, v)]

/-- `k in m` on a Python dict. -/
def alistHas {κ α : Type} [BEq κ] (m : List (κ × α)) (k : κ) : Bool :=
  m.any (fun p => p.1 == k)

/-! ### `app/common/schemas.py` -/

/-- `Detection` dataclass: class name, confidence, optional bounding box
`(x1, y1, x2, y2)`. -/
structure Detection where
  class_name : String
  confidence : ℚ
  bbox : Option (ℚ × ℚ × ℚ × ℚ) := none
deriving DecidableEq, Repr

/-- `Detection.area`: `max(0, x2-x1) * max(0, y2-y1)`, `None` without a bbox. -/
def Detection.area (d : Detection) : Option ℚ :=
  d.bbox.map (fun b => qMul (qMax 0 (qSub b.2.2.1 b.1)) (qMax 0 (qSub b.2.2.2 b.2.1)))

/-- `BucketAggregate` dataclass (with `bucket_ts` modelled as the epoch
second of the rendered ISO timestamp). -/
structure BucketAggregate where
  bucket_index : ℤ
  bucket_ts : ℤ
  counts : List (String × ℕ)
  total_vehicles : ℕ
  bbox_occupancy : Option ℚ
deriving DecidableEq, Repr

/-- `detections_by_class`: histogram of `class_name` in first-occurrence
order. -/
def detections_by_class (detections : List Detection) : List (String × ℕ) :=
  detections.foldl
    (fun counts d => alistSet counts d.class_name (alistGetD counts d.class_name 0 + 1))
    []

/-! ### `app/common/utils.py` -/

/-- Python `round(x, 1)` on an exact rational: round half to even at one
decimal place. -/
def pyRound1 (q : ℚ) : ℚ :=
  let x := qMul q 10
  let f : ℤ := qFloor x
  let r := qSub x (f : ℚ)
  let n : ℤ :=
    if mkRat 1 2 < r then f + 1
    else if r < mkRat 1 2 then f
    else if f % 2 = 0 then f else f + 1
  qDiv (n : ℚ) 10

/-- `floor_to_bucket` acting on the epoch second of an aware datetime:
`timestamp - timestamp % bucket_seconds` (Python `%` with a positive
divisor, i.e. `Int.emod`). The source raises `ValueError` for
`bucket_seconds <= 0`; callers of this pure model guard that case
explicitly. -/
def floor_to_bucket (t : ℤ) (bucket_seconds : ℤ) : ℤ :=
  t - t % bucket_seconds

/-- `map_vehicle_class`: lower-cased, stripped lookup in the class map,
filtering the sentinel values. ASCII fragment of `str.strip`/`str.lower`. -/
def asciiLowerChar (c : Char) : Char :=
  if 'A' ≤ c ∧ c ≤ 'Z' then Char.ofNat (c.toNat + 32) else c

def asciiLower (s : String) : String :=
  String.mk (s.data.map asciiLowerChar)

def asciiStrip (s : String) : String :=
  String.mk ((s.data.dropWhile (fun c => c = ' ')).reverse.dropWhile (fun c => c = ' ')).reverse

def map_vehicle_class (label : String) (class_map : List (String × String)) : Option String :=
  let key := asciiLower (asciiStrip label)
  match alistGet? class_map key with
  | none => none
  | some mapped =>
    let mapped := asciiLower (asciiStrip mapped)
    if mapped = "" ∨ mapped = "ignore" ∨ mapped = "none" ∨ mapped = "null" then none
    else some mapped

/-- `normalize_detections`: keep detections whose class maps to a real
vehicle class, rewriting the class name. -/
def normalize_detections (detections : List Detection) (class_map : List (String × String)) :
    List Detection :=
  detections.foldl
    (fun acc d =>
      match map_vehicle_class d.class_name class_map with
      | none => acc
      | some mapped => acc ++ [{ d with class_name := mapped }])
    []

/-! ### `app/counting/aggregation.py` -/

/-- `_BucketAccumulator` dataclass. -/
structure BucketAccumulator where
  counts : List (String × ℕ) := []
  total_vehicles : ℕ := 0
  frames : ℕ := 0
  occupancy_sum : ℚ := 0
  occupancy_frames : ℕ := 0
deriving DecidableEq, Repr

/-- `dedupe_detections`: keep the first detection for each
`(class_name, bbox rounded to one decimal)` key. -/
def dedupeKey (d : Detection) : String × Option (ℚ × ℚ × ℚ × ℚ) :=
  (d.class_name, d.bbox.map (fun b => (pyRound1 b.1, pyRound1 b.2.1, pyRound1 b.2.2.1, pyRound1 b.2.2.2)))

def dedupe_detections (detections : List Detection) : List Detection :=
  (detections.foldl
    (fun (acc : List Detection × List (String × Option (ℚ × ℚ × ℚ × ℚ))) d =>
      let key := dedupeKey d
      if acc.2.contains key then acc
      else (acc.1 ++ [d], acc.2 ++ [key]))
    ([], [])).1

/-- `compute_bbox_occupancy`: mean fractional frame coverage, `None`
when the frame size is unusable or no detection carries a bbox. -/
def compute_bbox_occupancy (detections : List Detection)
    (frame_size : Option (ℤ × ℤ)) : Option ℚ :=
  match frame_size with
  | none => none
  | some (width, height) =>
    if width ≤ 0 ∨ height ≤ 0 then none
    else
      let areas := detections.filterMap Detection.area
      if areas = [] then none
      else
        let total_area := (areas.map (fun a => qMax 0 a)).foldl qAdd 0
        some (qMin 1 (qDiv total_area ((width * height : ℤ) : ℚ)))

/-- `FrameAggregator` dataclass: `buckets` is the dict keyed by bucket
index. -/
structure FrameAggregator where
  bucket_seconds : ℤ
  buckets : List (ℤ × BucketAccumulator) := []
deriving Repr

/-- `FrameAggregator.add_frame`. -/
def FrameAggregator.add_frame (ag : FrameAggregator) (timestamp_sec : ℚ)
    (detections : List Detection) (frame_size : Option (ℤ × ℤ)) : FrameAggregator :=
  let bucket_index : ℤ := qFloor (qDiv timestamp_sec (ag.bucket_seconds : ℚ))
  let bucket := alistGetD ag.buckets bucket_index {}
  let unique := dedupe_detections detections
  let counts := detections_by_class unique
  let newCounts :=
    counts.foldl
      (fun acc (p : String × ℕ) => alistSet acc p.1 (alistGetD acc p.1 0 + p.2))
      bucket.counts
  let occupancy := compute_bbox_occupancy unique frame_size
  let bucket' : BucketAccumulator :=
    { counts := newCounts
      total_vehicles := bucket.total_vehicles + unique.length
      frames := bucket.frames + 1
      occupancy_sum := qAdd bucket.occupancy_sum (occupancy.getD 0)
      occupancy_frames := bucket.occupancy_frames + (if occupancy.isSome then 1 else 0) }
  { ag with buckets := alistSet ag.buckets bucket_index bucket' }

/-- `FrameAggregator.finalize`: one `BucketAggregate` per populated
bucket index, ascending. -/
def FrameAggregator.finalize (ag : FrameAggregator) (start_time : ℤ) : List BucketAggregate :=
  let start := floor_to_bucket start_time ag.bucket_seconds
  let sortedKeys := List.insertionSort (fun a b : ℤ => a ≤ b) (ag.buckets.map Prod.fst)
  sortedKeys.map (fun bucket_index =>
    let bucket := alistGetD ag.buckets bucket_index {}
    let bucket_ts := floor_to_bucket (start + bucket_index * ag.bucket_seconds) ag.bucket_seconds
    { bucket_index := bucket_index
      bucket_ts := bucket_ts
      counts := bucket.counts
      total_vehicles := bucket.total_vehicles
      bbox_occupancy :=
        if bucket.occupancy_frames ≠ 0 then
          some (qDiv bucket.occupancy_sum (bucket.occupancy_frames : ℚ))
        else none })

/-! ### `app/density/metrics.py` -/

structure DensityResult where
  density_score : ℚ
  density_level : String
deriving DecidableEq, Repr

/-- `compute_density_score`. -/
def compute_density_score (total_vehicles : ℤ) (max_vehicles : ℤ)
    (low_max : ℚ) (medium_max : ℚ) : DensityResult :=
  let score : ℚ :=
    if max_vehicles ≤ 0 then 0
    else qMin 1 (qDiv (total_vehicles : ℚ) (max_vehicles : ℚ))
  let level := if score ≤ low_max then "low" else if score ≤ medium_max then "medium" else "high"
  { density_score := score, density_level := level }

/-! ### `app/emissions/factors.py` and `app/emissions/sensitivity.py` -/

/-- `estimate_co2_kg`: fold over `counts.items()`, skipping classes with
no configured factor. -/
def estimate_co2_kg (counts : List (String × ℤ)) (factors : List (String × ℚ))
    (bucket_seconds : ℤ) : ℚ :=
  let scale : ℚ := qDiv (bucket_seconds : ℚ) 60
  counts.foldl
    (fun total p =>
      match alistGet? factors p.1 with
      | none => total
      | some factor => qAdd total (qMul (qMul (p.2 : ℚ) factor) scale))
    0

/-- `sensitivity_interval`: raises `ValueError` on negative `pct`. -/
def sensitivity_interval (estimate : ℚ) (pct : ℚ) : Except String (ℚ × ℚ) :=
  if pct < 0 then .error "pct must be non-negative"
  else
    let delta := qMul estimate (qDiv pct 100)
    .ok (qSub estimate delta, qAdd estimate delta)

/-! ### `app/db/models.py` — persisted rows

Surrogate autoincrement `id` and `created_at`/`updated_at` audit columns
carry no information the claims touch; the audit columns are modelled
where the source writes them (`updated_at` on checkpoints), `id` is
dropped (row identity in the model is positional). -/

structure CameraRow where
  camera_id : String
  location : Option String
  latitude : Option ℚ
  longitude : Option ℚ
  notes : Option String
deriving DecidableEq, Repr

/-- `pipeline_runs` row. Status strings: running, completed, failed, stopped. -/
structure RunRow where
  run_id : String
  camera_id : String
  source_video : String
  config_hash : String
  started_at : String
  ended_at : Option String
  status : String
  error_message : Option String
deriving DecidableEq, Repr

structure CountRow where
  run_id : String
  camera_id : String
  bucket_ts : ℤ
  vehicle_type : String
  count : ℤ
  source_video : String
deriving DecidableEq, Repr

structure DensityRow where
  run_id : String
  camera_id : String
  bucket_ts : ℤ
  total_vehicles : ℤ
  density_score : ℚ
  density_level : String
  bbox_occupancy : Option ℚ
  source_video : String
deriving DecidableEq, Repr

structure EmissionRow where
  run_id : String
  camera_id : String
  bucket_ts : ℤ
  estimated_co2_kg : ℚ
  co2_low_kg : Option ℚ
  co2_high_kg : Option ℚ
  source_video : String
deriving DecidableEq, Repr

structure CheckpointRow where
  run_id : String
  last_bucket_ts : ℤ
  bucket_index : ℤ
  updated_at : String
deriving DecidableEq, Repr

/-- The persisted database state the pipeline reads and writes. -/
structure DBState where
  cameras : List CameraRow := []
  runs : List RunRow := []
  counts : List CountRow := []
  density : List DensityRow := []
  emissions : List EmissionRow := []
  checkpoints : List CheckpointRow := []
deriving DecidableEq, Repr

/-! ### `app/db/repositories.py` -/

/-- `upsert_camera`: update only the fields whose argument is not `None`,
insert a fresh row when the camera is unknown. -/
def upsert_camera (st : DBState) (camera_id : String) (location : Option String)
    (latitude : Option ℚ) (longitude : Option ℚ) (notes : Option String) : DBState :=
  if st.cameras.any (fun c => c.camera_id == camera_id) then
    { st with cameras := st.cameras.map (fun c =>
        if c.camera_id == camera_id then
          { c with
            location := if location.isSome then location else c.location
            latitude := if latitude.isSome then latitude else c.latitude
            longitude := if longitude.isSome then longitude else c.longitude
            notes := if notes.isSome then notes else c.notes }
        else c) }
  else
    { st with cameras := st.cameras ++
        [{ camera_id := camera_id, location := location, latitude := latitude,
           longitude := longitude, notes := notes }] }

/-- `get_max_total_vehicles`: `SELECT max(total_vehicles) WHERE camera_id = ?`. -/
def get_max_total_vehicles (st : DBState) (camera_id : String) : Option ℤ :=
  ((st.density.filter (fun r => r.camera_id == camera_id)).map DensityRow.total_vehicles).max?

/-- `ensure_run_exists`: empty `run_id` or a missing `pipeline_runs` row raises. -/
def ensure_run_exists (st : DBState) (run_id : String) : Except String Unit :=
  if run_id = "" then .error "run_id is required for bucket writes"
  else if st.runs.any (fun r => r.run_id == run_id) then .ok ()
  else .error "run_id does not exist"

/-- `get_checkpoint`: validated read of the `processing_checkpoints` row. -/
def get_checkpoint (st : DBState) (run_id : String) : Except String (Option CheckpointRow) := do
  if run_id = "" then throw "run_id is required for checkpoint reads"
  let _ ← ensure_run_exists st run_id
  return st.checkpoints.find? (fun c => c.run_id == run_id)

/-- One row of a SQLite `INSERT .. ON CONFLICT DO UPDATE` statement:
update the mutable fields of the matching row in place, else append. -/
def upsertRow {α : Type} (keyMatch : α → α → Bool) (applyUpd : α → α → α)
    (table : List α) (r : α) : List α :=
  if table.any (fun t => keyMatch r t) then
    table.map (fun t => if keyMatch r t then applyUpd t r else t)
  else
    table ++ [r]

/-- Conflict target of `processing_checkpoints` (`run_id`). -/
def checkpointKeyEq (r t : CheckpointRow) : Bool := r.run_id == t.run_id

/-- `DO UPDATE SET` clause of the checkpoint upsert. -/
def checkpointUpd (t r : CheckpointRow) : CheckpointRow :=
  { t with last_bucket_ts := r.last_bucket_ts, bucket_index := r.bucket_index,
           updated_at := r.updated_at }

/-- Conflict target `(run_id, bucket_ts, vehicle_type)` (`uq_counts`). -/
def countRowKeyEq (r t : CountRow) : Bool :=
  r.run_id == t.run_id && r.bucket_ts == t.bucket_ts && r.vehicle_type == t.vehicle_type

/-- `DO UPDATE SET count, source_video`. -/
def countRowUpd (t r : CountRow) : CountRow :=
  { t with count := r.count, source_video := r.source_video }

/-- Conflict target `(run_id, bucket_ts)` (`uq_density`). -/
def densityRowKeyEq (r t : DensityRow) : Bool :=
  r.run_id == t.run_id && r.bucket_ts == t.bucket_ts

/-- `DO UPDATE SET` of the density upsert. -/
def densityRowUpd (t r : DensityRow) : DensityRow :=
  { t with total_vehicles := r.total_vehicles, density_score := r.density_score,
           density_level := r.density_level, bbox_occupancy := r.bbox_occupancy,
           source_video := r.source_video }

/-- Conflict target `(run_id, bucket_ts)` (`uq_emissions`). -/
def emissionRowKeyEq (r t : EmissionRow) : Bool :=
  r.run_id == t.run_id && r.bucket_ts == t.bucket_ts

/-- `DO UPDATE SET` of the emissions upsert. -/
def emissionRowUpd (t r : EmissionRow) : EmissionRow :=
  { t with estimated_co2_kg := r.estimated_co2_kg, co2_low_kg := r.co2_low_kg,
           co2_high_kg := r.co2_high_kg, source_video := r.source_video }

/-- `upsert_checkpoint` (SQLite dialect branch): conflict target `run_id`;
updates `last_bucket_ts`, `bucket_index`, `updated_at`. -/
def upsert_checkpoint (st : DBState) (run_id : String) (bucket_ts : ℤ)
    (bucket_index : ℤ) (now_iso : String) : Except String DBState := do
  if run_id = "" then throw "run_id is required for checkpoint writes"
  let _ ← ensure_run_exists st run_id
  let row : CheckpointRow :=
    { run_id := run_id, last_bucket_ts := bucket_ts,
      bucket_index := bucket_index, updated_at := now_iso }
  return { st with checkpoints := upsertRow checkpointKeyEq checkpointUpd st.checkpoints row }

/-- `_normalize_rows` specialised to rows that always carry their
`run_id` (as the orchestrator builds them): mismatch raises. -/
def checkRowRunIds {α : Type} (rowRunId : α → String) (rows : List α) (run_id : String)
    (table_name : String) : Except String Unit :=
  if rows.all (fun r => rowRunId r == run_id) then .ok ()
  else .error (table_name ++ " row run_id mismatch")

/-- `insert_vehicle_counts` (SQLite dialect branch): upsert on
`(run_id, bucket_ts, vehicle_type)`, updating `count` and `source_video`. -/
def insert_vehicle_counts (st : DBState) (rows : List CountRow) (run_id : String) :
    Except String DBState := do
  if rows = [] then return st
  if run_id = "" then throw "run_id is required for vehicle_counts writes"
  let _ ← ensure_run_exists st run_id
  let _ ← checkRowRunIds CountRow.run_id rows run_id "vehicle_counts"
  return { st with counts := rows.foldl (upsertRow countRowKeyEq countRowUpd) st.counts }

/-- `insert_density` (SQLite dialect branch): upsert on
`(run_id, bucket_ts)`, updating the density payload fields. -/
def insert_density (st : DBState) (rows : List DensityRow) (run_id : String) :
    Except String DBState := do
  if rows = [] then return st
  if run_id = "" then throw "run_id is required for traffic_density writes"
  let _ ← ensure_run_exists st run_id
  let _ ← checkRowRunIds DensityRow.run_id rows run_id "traffic_density"
  return { st with density := rows.foldl (upsertRow densityRowKeyEq densityRowUpd) st.density }

/-- `insert_emissions` (SQLite dialect branch): upsert on
`(run_id, bucket_ts)`, updating the emission payload fields. -/
def insert_emissions (st : DBState) (rows : List EmissionRow) (run_id : String) :
    Except String DBState := do
  if rows = [] then return st
  if run_id = "" then throw "run_id is required for emission_estimates writes"
  let _ ← ensure_run_exists st run_id
  let _ ← checkRowRunIds EmissionRow.run_id rows run_id "emission_estimates"
  return { st with emissions := rows.foldl (upsertRow emissionRowKeyEq emissionRowUpd) st.emissions }

/-! ### `app/common/config.py` — the effective configuration

`AppConfig` and its nested frozen dataclasses. Python `float` fields are
modelled as `ℚ` (configuration files carry exact decimals), dict fields
as insertion-ordered association lists. Defaults mirror the source. -/

structure DummyConfig where
  mode : String := "none"
  max_detections_per_frame : ℤ := 5
  seed : ℤ := 42
deriving DecidableEq, Repr

structure DetectorConfig where
  name : String := "dummy"
  model_path : Option String := none
  device : String := "cpu"
  confidence_threshold : ℚ := mkRat 1 4
  visualize : Bool := false
  visualize_every_n : ℤ := 1
  display_resize_width : Option ℤ := none
  save_annotated_video : Bool := false
  annotated_output_path : Option String := none
  dummy : DummyConfig := {}
deriving DecidableEq, Repr

structure DensityConfig where
  low_max : ℚ := mkRat 33 100
  medium_max : ℚ := mkRat 66 100
  default_max_vehicles : ℤ := 30
  rolling_max : Bool := true
  max_vehicles_by_camera : List (String × ℤ) := []
deriving DecidableEq, Repr

structure EmissionsConfig where
  factors : List (String × ℚ) := [("car", mkRat 1 4), ("bus", mkRat 6 5), ("truck", 1), ("motorcycle", mkRat 1 10)]
  sensitivity_pct : Option ℚ := some 10
deriving DecidableEq, Repr

structure DataPaths where
  db_path : String := "data/db/traffic.db"
  logs_dir : String := "data/logs"
deriving DecidableEq, Repr

structure RealtimeConfig where
  enabled : Bool := false
  websocket_url : String := "ws://localhost:8000/ws/live"
  send_frames : Bool := true
deriving DecidableEq, Repr

structure AppConfig where
  frame_sampling_fps : ℚ := 2
  bucket_seconds : ℤ := 60
  vehicle_class_map : List (String × String) :=
    [("car", "car"), ("bus", "bus"), ("truck", "truck"),
     ("motorcycle", "motorcycle"), ("motorbike", "motorcycle")]
  detector : DetectorConfig := {}
  density : DensityConfig := {}
  emissions : EmissionsConfig := {}
  data_paths : DataPaths := {}
  realtime : RealtimeConfig := {}
deriving DecidableEq, Repr

/-! ### SHA-256 (the `hashlib.sha256` dependency of `_stable_config_hash`)

Straightforward executable FIPS 180-4 SHA-256 over byte lists, words as
`Nat` reduced mod `2^32`. -/

def w32 (n : ℕ) : ℕ := n % 4294967296

def rotr32 (x n : ℕ) : ℕ := w32 ((x >>> n) ||| (x <<< (32 - n)))

def sha256K : List ℕ :=
  [1116352408, 1899447441, 3049323471, 3921009573, 961987163, 1508970993,
   2453635748, 2870763221, 3624381080, 310598401, 607225278, 1426881987,
   1925078388, 2162078206, 2614888103, 3248222580, 3835390401, 4022224774,
   264347078, 604807628, 770255983, 1249150122, 1555081692, 1996064986,
   2554220882, 2821834349, 2952996808, 3210313671, 3336571891, 3584528711,
   113926993, 338241895, 666307205, 773529912, 1294757372, 1396182291,
   1695183700, 1986661051, 2177026350, 2456956037, 2730485921, 2820302411,
   3259730800, 3345764771, 3516065817, 3600352804, 4094571909, 275423344,
   430227734, 506948616, 659060556, 883997877, 958139571, 1322822218,
   1537002063, 1747873779, 1955562222, 2024104815, 2227730452, 2361852424,
   2428436474, 2756734187, 3204031479, 3329325298]

def sha256InitH : List ℕ :=
  [1779033703, 3144134277, 1013904242, 2773480762, 1359893119, 2600822924,
   528734635, 1541459225]

def sha256Pad (msg : List ℕ) : List ℕ :=
  let len := msg.length
  let bitLen := len * 8
  let padZeros := (55 - len % 64 + 64) % 64
  msg ++ [0x80] ++ List.replicate padZeros 0 ++
    (List.range 8).map (fun i => (bitLen >>> ((7 - i) * 8)) % 256)

def sha256Words : List ℕ → List ℕ
  | a :: b :: c :: d :: rest => (a <<< 24 ||| b <<< 16 ||| c <<< 8 ||| d) :: sha256Words rest
  | _ => []

def sha256Extend (ws : List ℕ) (i : ℕ) : List ℕ :=
  let get := fun j => ws.getD j 0
  let s0 := fun x => (rotr32 x 7) ^^^ (rotr32 x 18) ^^^ (x >>> 3)
  let s1 := fun x => (rotr32 x 17) ^^^ (rotr32 x 19) ^^^ (x >>> 10)
  ws ++ [w32 (get (i - 16) + s0 (get (i - 15)) + get (i - 7) + s1 (get (i - 2)))]

def sha256Schedule (block : List ℕ) : List ℕ :=
  (List.range 48).foldl (fun ws i => sha256Extend ws (i + 16)) block

def sha256Compress (st : List ℕ) (kw : ℕ × ℕ) : List ℕ :=
  match st with
  | [a, b, c, d, e, f, g, h] =>
    let S1 := (rotr32 e 6) ^^^ (rotr32 e 11) ^^^ (rotr32 e 25)
    let ch := (e &&& f) ^^^ ((4294967295 - e) &&& g)
    let temp1 := w32 (h + S1 + ch + kw.1 + kw.2)
    let S0 := (rotr32 a 2) ^^^ (rotr32 a 13) ^^^ (rotr32 a 22)
    let maj := (a &&& b) ^^^ (a &&& c) ^^^ (b &&& c)
    let temp2 := w32 (S0 + maj)
    [w32 (temp1 + temp2), a, b, c, w32 (d + temp1), e, f, g]
  | other => other

def sha256Block (h : List ℕ) (block : List ℕ) : List ℕ :=
  let ws := sha256Schedule block
  let st := (sha256K.zip ws).foldl sha256Compress h
  (h.zip st).map (fun p => w32 (p.1 + p.2))

def chunks64Aux : ℕ → List ℕ → List (List ℕ)
  | 0, _ => []
  | _ + 1, [] => []
  | fuel + 1, l => l.take 64 :: chunks64Aux fuel (l.drop 64)

def chunks64 (l : List ℕ) : List (List ℕ) := chunks64Aux l.length l

def sha256Bytes (msg : List ℕ) : List ℕ :=
  let blocks := chunks64 (sha256Pad msg)
  let final := blocks.foldl (fun h b => sha256Block h (sha256Words b)) sha256InitH
  final.flatMap (fun word => [(word >>> 24) % 256, (word >>> 16) % 256, (word >>> 8) % 256, word % 256])

def hexDigit (n : ℕ) : Char :=
  if n < 10 then Char.ofNat (48 + n) else Char.ofNat (87 + n)

def bytesToHex (bytes : List ℕ) : String :=
  String.mk (bytes.flatMap (fun b => [hexDigit (b / 16), hexDigit (b % 16)]))

/-- Byte content of an ASCII string (the canonical JSON payload is pure
ASCII because `ensure_ascii=True` escapes everything above `0x7f`). -/
def strBytes (s : String) : List ℕ := s.data.map Char.toNat

def sha256Hex (s : String) : String := bytesToHex (sha256Bytes (strBytes s))

/-! ### Canonical JSON serialization
(`json.dumps(payload, sort_keys=True, separators=(",", ":"), ensure_ascii=True)`
applied to `dataclasses.asdict(config)`). Keys of the fixed dataclasses
are written in their sorted order; dict-valued fields are sorted at
encoding time. -/

def uHex4 (n : ℕ) : String :=
  String.mk [hexDigit (n / 4096 % 16), hexDigit (n / 256 % 16), hexDigit (n / 16 % 16), hexDigit (n % 16)]

def jsonEscapeChar (c : Char) : String :=
  if c = '"' then "\\\""
  else if c = '\\' then "\\\\"
  else if c = '\n' then "\\n"
  else if c = '\t' then "\\t"
  else if c = '\r' then "\\r"
  else if c.toNat = 8 then "\\b"
  else if c.toNat = 12 then "\\f"
  else if c.toNat < 32 then "\\u" ++ uHex4 c.toNat
  else if c.toNat < 128 then String.mk [c]
  else if c.toNat < 65536 then "\\u" ++ uHex4 c.toNat
  else
    let v := c.toNat - 65536
    "\\u" ++ uHex4 (55296 + v / 1024) ++ "\\u" ++ uHex4 (56320 + v % 1024)

def jsonString (s : String) : String :=
  "\"" ++ String.join (s.data.map jsonEscapeChar) ++ "\""

def jsonInt (i : ℤ) : String := toString i

/-- Decimal exponent: least `k ≤ 64` with `den ∣ 10^k`. -/
def decExp (den : ℕ) : Option ℕ :=
  (List.range 65).find? (fun k => 10 ^ k % den = 0)

def natPad0 (s : String) (k : ℕ) : String :=
  if s.length < k then String.mk (List.replicate (k - s.length) '0') ++ s else s

/-- Python `repr`/`json` rendering of a float whose value is an exact
decimal: shortest decimal digit string, always with a fractional part. -/
def renderFloat (q : ℚ) : String :=
  let sign := if q.num < 0 then "-" else ""
  let n := q.num.natAbs
  match decExp q.den with
  | some k =>
    if k = 0 then sign ++ toString n ++ ".0"
    else
      let m := n * (10 ^ k / q.den)
      sign ++ toString (m / 10 ^ k) ++ "." ++ natPad0 (toString (m % 10 ^ k)) k
  | none => toString q.num ++ "/" ++ toString q.den

def jsonBool (b : Bool) : String := if b then "true" else "false"

def jsonOpt {α : Type} (f : α → String) : Option α → String
  | none => "null"
  | some a => f a

def jsonObject (fields : List (String × String)) : String :=
  "\x7b" ++ String.intercalate "," (fields.map (fun p => jsonString p.1 ++ ":" ++ p.2)) ++ "\x7d"

/-- A dict field: `sort_keys=True` orders entries by key at encoding time. -/
def jsonDict {α : Type} (f : α → String) (m : List (String × α)) : String :=
  jsonObject ((List.insertionSort (fun a b => strLe a.1 b.1 = true) m).map (fun p => (p.1, f p.2)))

def encodeDummy (d : DummyConfig) : String :=
  jsonObject
    [("max_detections_per_frame", jsonInt d.max_detections_per_frame),
     ("mode", jsonString d.mode),
     ("seed", jsonInt d.seed)]

def encodeDetector (d : DetectorConfig) : String :=
  jsonObject
    [("annotated_output_path", jsonOpt jsonString d.annotated_output_path),
     ("confidence_threshold", renderFloat d.confidence_threshold),
     ("device", jsonString d.device),
     ("display_resize_width", jsonOpt jsonInt d.display_resize_width),
     ("dummy", encodeDummy d.dummy),
     ("model_path", jsonOpt jsonString d.model_path),
     ("name", jsonString d.name),
     ("save_annotated_video", jsonBool d.save_annotated_video),
     ("visualize", jsonBool d.visualize),
     ("visualize_every_n", jsonInt d.visualize_every_n)]

def encodeDensity (d : DensityConfig) : String :=
  jsonObject
    [("default_max_vehicles", jsonInt d.default_max_vehicles),
     ("low_max", renderFloat d.low_max),
     ("max_vehicles_by_camera", jsonDict jsonInt d.max_vehicles_by_camera),
     ("medium_max", renderFloat d.medium_max),
     ("rolling_max", jsonBool d.rolling_max)]

def encodeEmissions (e : EmissionsConfig) : String :=
  jsonObject
    [("factors", jsonDict renderFloat e.factors),
     ("sensitivity_pct", jsonOpt renderFloat e.sensitivity_pct)]

def encodeDataPaths (d : DataPaths) : String :=
  jsonObject
    [("db_path", jsonString d.db_path),
     ("logs_dir", jsonString d.logs_dir)]

def encodeRealtime (r : RealtimeConfig) : String :=
  jsonObject
    [("enabled", jsonBool r.enabled),
     ("send_frames", jsonBool r.send_frames),
     ("websocket_url", jsonString r.websocket_url)]

/-- The canonical sorted-key JSON serialization of `asdict(config)`. -/
def encodeAppConfig (c : AppConfig) : String :=
  jsonObject
    [("bucket_seconds", jsonInt c.bucket_seconds),
     ("data_paths", encodeDataPaths c.data_paths),
     ("density", encodeDensity c.density),
     ("detector", encodeDetector c.detector),
     ("emissions", encodeEmissions c.emissions),
     ("frame_sampling_fps", renderFloat c.frame_sampling_fps),
     ("realtime", encodeRealtime c.realtime),
     ("vehicle_class_map", jsonDict jsonString c.vehicle_class_map)]

/-- `_stable_config_hash`: SHA-256 hex digest of the canonical JSON. -/
def stableConfigHash (c : AppConfig) : String := sha256Hex (encodeAppConfig c)

/-! ### `app/pipeline/orchestrator.py` — `run_pipeline`

External collaborators are modelled as explicit inputs:
* the frame source and the detector are one list of `FrameInput`
  records, each carrying the sampled timestamp, the frame dimensions and
  the outcome of `detector.detect` on that frame (a detection list, the
  `StopProcessing` signal, or another exception);
* `uuid.uuid4()` and `utc_now_iso()` are the parameters `new_run_id`
  and `now_iso`;
* `Path(video_path).exists()` is the parameter `video_exists`;
* storage faults inside a bucket transaction (the persistence-conflict
  class of errors) are injected through `emit_fail`, which makes the
  emissions write of the selected bucket indices raise, exactly as the
  repository's resume test monkeypatches `insert_emissions`.
`_get_video_metadata` (cv2/imageio) only fills pass-through columns no
claim touches and is modelled as returning no metadata. -/

/-- Outcome of `detector.detect` on one frame. -/
inductive DetectOutcome
  | dets (detections : List Detection)
  | stop
  | err (msg : String)
deriving DecidableEq, Repr

/-- One `(frame, timestamp_sec)` pair from `iter_sampled_frames`,
with the detector's behaviour on it. -/
structure FrameInput where
  ts : ℚ
  width : ℤ
  height : ℤ
  outcome : DetectOutcome
deriving DecidableEq, Repr

/-- How the `for frame, timestamp_sec in ...` loop ended. -/
inductive LoopExit
  | finished
  | stoppedByUser
  | errored (msg : String)
deriving DecidableEq, Repr

/-- Loop-carried state: the aggregator, `frames_processed`, and (as a
ghost observation mirroring the test suite's counting detector) the
timestamps on which `detector.detect` was invoked. -/
structure LoopState where
  agg : FrameAggregator
  frames_processed : ℕ
  detector_calls : List ℚ
deriving Repr

/-- The frame-consumption loop (orchestrator lines 257-268): skip
frames below `resume_after` before invoking the detector; count the
frame; detect (stop breaks the loop, an exception propagates);
normalize and aggregate. -/
def frameLoop (class_map : List (String × String)) (resume_after : Option ℚ) :
    LoopState → List FrameInput → LoopState × LoopExit
  | s, [] => (s, .finished)
  | s, f :: rest =>
    if (match resume_after with | some r => decide (f.ts < r) | none => false) then
      frameLoop class_map resume_after s rest
    else
      let s' : LoopState :=
        { s with frames_processed := s.frames_processed + 1,
                 detector_calls := s.detector_calls ++ [f.ts] }
      match f.outcome with
      | .stop => (s', .stoppedByUser)
      | .err m => (s', .errored m)
      | .dets l =>
        let normalized := normalize_detections l class_map
        frameLoop class_map resume_after
          { s' with agg := s'.agg.add_frame f.ts normalized (some (f.width, f.height)) } rest

/-- `_update_run_status`: set status/error/ended_at, raising when the
`pipeline_runs` row is missing. -/
def update_run_status (st : DBState) (run_id : String) (status : String)
    (error_message : Option String) (now_iso : String) : Except String DBState :=
  if st.runs.any (fun r => r.run_id == run_id) then
    .ok { st with runs := st.runs.map (fun r =>
      if r.run_id == run_id then
        { r with status := status, error_message := error_message, ended_at := some now_iso }
      else r) }
  else .error "pipeline_runs row missing"

/-- The `except` handler's guarded status update: failures of the update
itself are swallowed (logged) and the original exception is re-raised. -/
def markRunFailed (st : DBState) (run_id : String) (msg : String) (now_iso : String) : DBState :=
  match update_run_status st run_id "failed" (some msg) now_iso with
  | .ok st' => st'
  | .error _ => st

/-- `order_by(started_at.desc()).first()` over an already-filtered list. -/
def latestRunBy (runs : List RunRow) : Option RunRow :=
  runs.foldl
    (fun acc r =>
      match acc with
      | none => some r
      | some b => if strLt b.started_at r.started_at then some r else some b)
    none

inductive ResolveOutcome
  | alreadyCompleted
  | active (run_id : String)
deriving DecidableEq, Repr

/-- Orchestrator lines 167-225: the run-resolution session. A matching
`completed` run short-circuits; a matching `failed`/`stopped` run is
reactivated (resume); otherwise a fresh `running` row is inserted. -/
def resolveRun (st : DBState) (camera_id source_video config_hash : String)
    (new_run_id started_at : String) : Except String (ResolveOutcome × DBState) :=
  let completed := st.runs.filter (fun r =>
    r.camera_id == camera_id && r.source_video == source_video &&
    r.config_hash == config_hash && r.status == "completed")
  if completed ≠ [] then .ok (.alreadyCompleted, st)
  else
    let resumable := st.runs.filter (fun r =>
      r.camera_id == camera_id && r.source_video == source_video &&
      r.config_hash == config_hash && (r.status == "failed" || r.status == "stopped"))
    match latestRunBy resumable with
    | some run =>
      .ok (.active run.run_id,
        { st with runs := st.runs.map (fun r =>
          if r.run_id == run.run_id then
            { r with status := "running", error_message := none, ended_at := none }
          else r) })
    | none =>
      if new_run_id = "" then .error "run_id generation failed"
      else
        .ok (.active new_run_id,
          { st with runs := st.runs ++
            [{ run_id := new_run_id, camera_id := camera_id, source_video := source_video,
               config_hash := config_hash, started_at := started_at, ended_at := none,
               status := "running", error_message := none }] })

/-- The per-bucket rows assembled by the payload-computation phase. -/
structure BucketPayload where
  bucket_index : ℤ
  bucket_ts : ℤ
  counts_rows : List CountRow
  density_row : DensityRow
  emission_row : EmissionRow
deriving DecidableEq, Repr

/-- `sorted(set(config.emissions.factors.keys()) | {"car", "bus", "truck", "motorcycle"})`. -/
def vehicleTypes (factors : List (String × ℚ)) : List String :=
  List.insertionSort (fun a b => strLe a b = true)
    ((factors.map Prod.fst ++ ["car", "bus", "truck", "motorcycle"]).eraseDups)

/-- Orchestrator lines 312-381: pure bucket computation, threading the
rolling maximum across buckets. -/
def computePayloads (cfg : AppConfig) (camera_id source_video run_id : String)
    (rolling_max0 : ℤ) (buckets : List BucketAggregate) :
    Except String (List BucketPayload) := do
  let vts := vehicleTypes cfg.emissions.factors
  let result ← buckets.foldlM
    (fun (acc : ℤ × List BucketPayload) bucket => do
      let rolling_max := acc.1
      let (rolling_max, max_for_bucket) :=
        if cfg.density.rolling_max then
          let m := max rolling_max (bucket.total_vehicles : ℤ)
          (m, m)
        else
          (rolling_max,
           alistGetD cfg.density.max_vehicles_by_camera camera_id cfg.density.default_max_vehicles)
      let density_result := compute_density_score (bucket.total_vehicles : ℤ) max_for_bucket
        cfg.density.low_max cfg.density.medium_max
      let counts_for_bucket : List (String × ℤ) :=
        vts.map (fun v => (v, (alistGetD bucket.counts v 0 : ℕ)))
      let co2_estimate := estimate_co2_kg counts_for_bucket cfg.emissions.factors cfg.bucket_seconds
      let bounds ← match cfg.emissions.sensitivity_pct with
        | none => pure (none, none)
        | some pct => do
          let lohi ← sensitivity_interval co2_estimate pct
          pure (some lohi.1, some lohi.2)
      let counts_rows := counts_for_bucket.map (fun p =>
        { run_id := run_id, camera_id := camera_id, bucket_ts := bucket.bucket_ts,
          vehicle_type := p.1, count := p.2, source_video := source_video : CountRow })
      let density_row : DensityRow :=
        { run_id := run_id, camera_id := camera_id, bucket_ts := bucket.bucket_ts,
          total_vehicles := (bucket.total_vehicles : ℤ),
          density_score := density_result.density_score,
          density_level := density_result.density_level,
          bbox_occupancy := bucket.bbox_occupancy, source_video := source_video }
      let emission_row : EmissionRow :=
        { run_id := run_id, camera_id := camera_id, bucket_ts := bucket.bucket_ts,
          estimated_co2_kg := co2_estimate, co2_low_kg := bounds.1,
          co2_high_kg := bounds.2, source_video := source_video }
      pure (rolling_max,
        acc.2 ++ [{ bucket_index := bucket.bucket_index, bucket_ts := bucket.bucket_ts,
                    counts_rows := counts_rows, density_row := density_row,
                    emission_row := emission_row }]))
    (rolling_max0, [])
  return result.2

/-- One bucket transaction (orchestrator lines 396-410): the three
derived-row upserts plus the checkpoint advance, executed inside
`session.begin()`. `emit_fail` injects a storage fault into the
emissions write. The caller implements the rollback. -/
def commitBucketTx (st : DBState) (run_id : String) (p : BucketPayload)
    (emit_fail : ℤ → Bool) (now_iso : String) : Except String DBState :=
  match insert_vehicle_counts st p.counts_rows run_id with
  | .error e => .error e
  | .ok st1 =>
    match insert_density st1 [p.density_row] run_id with
    | .error e => .error e
    | .ok st2 =>
      match (if emit_fail p.bucket_index then .error "forced failure"
             else insert_emissions st2 [p.emission_row] run_id) with
      | .error e => .error e
      | .ok st3 => upsert_checkpoint st3 run_id p.bucket_ts p.bucket_index now_iso

/-- The bucket-persistence loop: commit each payload transactionally in
order; on the first failing transaction the state rolls back to the
pre-transaction state and the exception propagates. -/
def commitLoop (run_id : String) (emit_fail : ℤ → Bool) (now_iso : String) :
    DBState → List BucketPayload → Except String Unit × DBState
  | st, [] => (.ok (), st)
  | st, p :: rest =>
    match commitBucketTx st run_id p emit_fail now_iso with
    | .ok st' => commitLoop run_id emit_fail now_iso st' rest
    | .error e => (.error e, st)

/-- Orchestrator lines 285-433: everything inside the big `try` that
follows the frame loop, with the `except` handler that marks the run
`failed` before re-raising. -/
def postLoop (st : DBState) (cfg : AppConfig) (camera_id source_video run_id : String)
    (resume_checkpoint : Option CheckpointRow) (ls : LoopState) (start_time : ℤ)
    (now_iso : String) (emit_fail : ℤ → Bool) : Except String Unit × DBState :=
  if ls.frames_processed = 0 ∧ resume_checkpoint.isNone then
    (.error "No frames processed; check video path and sampling fps",
     markRunFailed st run_id "No frames processed; check video path and sampling fps" now_iso)
  else
    let buckets := ls.agg.finalize start_time
    if buckets = [] ∧ resume_checkpoint.isNone then
      (.error "No buckets produced; check input data and bucket settings",
       markRunFailed st run_id "No buckets produced; check input data and bucket settings" now_iso)
    else
      let max_seen := get_max_total_vehicles st camera_id
      let rolling_max := max_seen.getD cfg.density.default_max_vehicles
      match computePayloads cfg camera_id source_video run_id rolling_max buckets with
      | .error e => (.error e, markRunFailed st run_id e now_iso)
      | .ok payloads =>
        let payloads := match resume_checkpoint with
          | some c => payloads.filter (fun p => c.bucket_index < p.bucket_index)
          | none => payloads
        if resume_checkpoint.isSome ∧ payloads = [] then
          match update_run_status st run_id "completed" none now_iso with
          | .ok st' => (.ok (), st')
          | .error e => (.error e, markRunFailed st run_id e now_iso)
        else
          match commitLoop run_id emit_fail now_iso st payloads with
          | (.error e, st') => (.error e, markRunFailed st' run_id e now_iso)
          | (.ok _, st') =>
            match update_run_status st' run_id "completed" none now_iso with
            | .ok st'' => (.ok (), st'')
            | .error e => (.error e, markRunFailed st' run_id e now_iso)

/-- `run_pipeline`, with the ghost detector-call trace as a third
result component. Follows the source order: existence check, argument
defaulting, `floor_to_bucket` (whose `ValueError` on a non-positive
bucket width propagates before any write), config hash, camera upsert
and run resolution, checkpoint read, frame loop, post-loop phase. -/
def runPipelineTrace (st : DBState) (video_exists : Bool) (video_path : String)
    (camera_id : String) (cfg : AppConfig) (source_video? : Option String)
    (camera_location : Option String) (camera_latitude camera_longitude : Option ℚ)
    (camera_notes : Option String) (start_time : ℤ) (frames : List FrameInput)
    (new_run_id : String) (now_iso : String) (emit_fail : ℤ → Bool) :
    Except String Unit × DBState × List ℚ :=
  if ¬ video_exists then (.error ("Video not found: " ++ video_path), st, [])
  else
    let source_video := source_video?.getD video_path
    if cfg.bucket_seconds ≤ 0 then (.error "bucket_seconds must be > 0", st, [])
    else
      let start_time := floor_to_bucket start_time cfg.bucket_seconds
      let config_hash := stableConfigHash cfg
      let st := upsert_camera st camera_id camera_location camera_latitude
        camera_longitude camera_notes
      match resolveRun st camera_id source_video config_hash new_run_id now_iso with
      | .error e => (.error e, st, [])
      | .ok (.alreadyCompleted, st) => (.ok (), st, [])
      | .ok (.active run_id, st) =>
        match get_checkpoint st run_id with
        | .error e => (.error e, st, [])
        | .ok resume_checkpoint =>
          let resume_after : Option ℚ := resume_checkpoint.map
            (fun c => (((c.bucket_index + 1) * cfg.bucket_seconds : ℤ) : ℚ))
          let init : LoopState :=
            { agg := { bucket_seconds := cfg.bucket_seconds }, frames_processed := 0,
              detector_calls := [] }
          let (ls, exit) := frameLoop cfg.vehicle_class_map resume_after init frames
          match exit with
          | .errored msg => (.error msg, markRunFailed st run_id msg now_iso, ls.detector_calls)
          | _ =>
            let (res, st') := postLoop st cfg camera_id source_video run_id
              resume_checkpoint ls start_time now_iso emit_fail
            (res, st', ls.detector_calls)

/-- `run_pipeline` (result and final persisted state). -/
def run_pipeline (st : DBState) (video_exists : Bool) (video_path : String)
    (camera_id : String) (cfg : AppConfig) (source_video? : Option String)
    (camera_location : Option String) (camera_latitude camera_longitude : Option ℚ)
    (camera_notes : Option String) (start_time : ℤ) (frames : List FrameInput)
    (new_run_id : String) (now_iso : String) (emit_fail : ℤ → Bool) :
    Except String Unit × DBState :=
  let r := runPipelineTrace st video_exists video_path camera_id cfg source_video?
    camera_location camera_latitude camera_longitude camera_notes start_time frames
    new_run_id now_iso emit_fail
  (r.1, r.2.1)

/-- Status of a run in the persisted state. -/
def runStatus (st : DBState) (run_id : String) : Option String :=
  (st.runs.find? (fun r => r.run_id == run_id)).map RunRow.status

/-- Stored error message of a run (`some (some m)` = present with message). -/
def runError (st : DBState) (run_id : String) : Option (Option String) :=
  (st.runs.find? (fun r => r.run_id == run_id)).map RunRow.error_message

/-- The checkpoint row of a run. -/
def runCheckpoint (st : DBState) (run_id : String) : Option CheckpointRow :=
  st.checkpoints.find? (fun c => c.run_id == run_id)

/-! ### Vocabulary for the claim statements -/

/-- Unique key of a `vehicle_counts` row (`uq_counts`). -/
def countKey (r : CountRow) : String × ℤ × String := (r.run_id, r.bucket_ts, r.vehicle_type)

/-- Unique key of a `traffic_density` row (`uq_density`). -/
def densityKey (r : DensityRow) : String × ℤ := (r.run_id, r.bucket_ts)

/-- Unique key of an `emission_estimates` row (`uq_emissions`). -/
def emissionKey (r : EmissionRow) : String × ℤ := (r.run_id, r.bucket_ts)

/-- The state holds no derived rows and no checkpoint for `run_id`. -/
def noRunRows (st : DBState) (run_id : String) : Prop :=
  (∀ r ∈ st.counts, r.run_id ≠ run_id) ∧ (∀ r ∈ st.density, r.run_id ≠ run_id) ∧
  (∀ r ∈ st.emissions, r.run_id ≠ run_id) ∧ (∀ c ∈ st.checkpoints, c.run_id ≠ run_id)

/-- Well-formedness of a bucket payload as the orchestrator builds it:
all rows carry the payload's `run_id` and `bucket_ts`, and the per-class
rows have pairwise distinct vehicle types. -/
def payloadWF (run_id : String) (p : BucketPayload) : Prop :=
  (∀ r ∈ p.counts_rows, r.run_id = run_id ∧ r.bucket_ts = p.bucket_ts) ∧
  p.counts_rows.Pairwise (fun a b => a.vehicle_type ≠ b.vehicle_type) ∧
  p.density_row.run_id = run_id ∧ p.density_row.bucket_ts = p.bucket_ts ∧
  p.emission_row.run_id = run_id ∧ p.emission_row.bucket_ts = p.bucket_ts

/-- The persisted effect of successfully committing `ps` (in order) on
top of `st`, for a run with no prior rows: derived rows are appended
and the checkpoint carries the last committed payload. -/
def committedState (st : DBState) (run_id now_iso : String) (ps : List BucketPayload) : DBState :=
  { st with
    counts := st.counts ++ ps.flatMap BucketPayload.counts_rows
    density := st.density ++ ps.map BucketPayload.density_row
    emissions := st.emissions ++ ps.map BucketPayload.emission_row
    checkpoints := st.checkpoints ++
      (match ps.getLast? with
       | none => []
       | some p => [{ run_id := run_id, last_bucket_ts := p.bucket_ts,
                      bucket_index := p.bucket_index, updated_at := now_iso }]) }

/-- A dict field read as a finite map: same entries up to insertion
order, with well-formed (duplicate-free) keys. -/
def dictEquiv {α : Type} (m1 m2 : List (String × α)) : Prop :=
  m1.Perm m2 ∧ (m1.map Prod.fst).Nodup

/-- Structural equality of two configurations as Python values: equal
scalar fields, dict fields equal as maps (insertion order ignored). -/
def AppConfig.structEq (c1 c2 : AppConfig) : Prop :=
  c1.frame_sampling_fps = c2.frame_sampling_fps ∧
  c1.bucket_seconds = c2.bucket_seconds ∧
  dictEquiv c1.vehicle_class_map c2.vehicle_class_map ∧
  c1.detector = c2.detector ∧
  c1.density.low_max = c2.density.low_max ∧
  c1.density.medium_max = c2.density.medium_max ∧
  c1.density.default_max_vehicles = c2.density.default_max_vehicles ∧
  c1.density.rolling_max = c2.density.rolling_max ∧
  dictEquiv c1.density.max_vehicles_by_camera c2.density.max_vehicles_by_camera ∧
  dictEquiv c1.emissions.factors c2.emissions.factors ∧
  c1.emissions.sensitivity_pct = c2.emissions.sensitivity_pct ∧
  c1.data_paths = c2.data_paths ∧
  c1.realtime = c2.realtime

/-! ### Concrete scenarios used by counterexamples and witnesses -/

/-- A car detection with a 10x10 box. -/
def scenCar : Detection := { class_name := "car", confidence := 1, bbox := some (0, 0, 10, 10) }

/-- `_stable_config_hash` of the default configuration (the digest the
source computes for `AppConfig()`). -/
def defaultConfigHashHex : String :=
  "533a0f36dd7daf3142efd7d21f76306d13c1c7dad2d1f915af531b89da33a53a"

/-- Frames for the user-stop scenario: one car frame at t=5s, then the
detector raises `StopProcessing` at t=70s. -/
def stopScenarioFrames : List FrameInput :=
  [{ ts := 5, width := 10, height := 10, outcome := .dets [scenCar] },
   { ts := 70, width := 10, height := 10, outcome := .stop }]

/-- A state holding a `completed` run for
`("CAM_001", "v.mp4", hash of the default config)` and its camera row. -/
def completedScenarioState : DBState :=
  { cameras := [{ camera_id := "CAM_001", location := some "Old yard",
                  latitude := none, longitude := none, notes := none }],
    runs := [{ run_id := "run-0", camera_id := "CAM_001", source_video := "v.mp4",
               config_hash := defaultConfigHashHex, started_at := "T0",
               ended_at := some "T1", status := "completed", error_message := none }] }

/-- A state holding a `failed` run for the same triple together with a
checkpoint recording bucket 0 as committed. -/
def resumeScenarioState : DBState :=
  { runs := [{ run_id := "run-0", camera_id := "CAM_001", source_video := "v.mp4",
               config_hash := defaultConfigHashHex, started_at := "T0",
               ended_at := some "T1", status := "failed", error_message := some "boom" }],
    checkpoints := [{ run_id := "run-0", last_bucket_ts := 0, bucket_index := 0,
                      updated_at := "T1" }] }

/-- Default configuration with only `data_paths.db_path` changed. -/
def dbPathVariant : AppConfig :=
  { data_paths := { db_path := "data/db/alternate.db", logs_dir := "data/logs" } }

/-- Default configuration with only `realtime.enabled` changed. -/
def realtimeVariant : AppConfig := { realtime := { enabled := true } }

/-- Default configuration with only `detector.visualize` changed. -/
def visualizeVariant : AppConfig := { detector := { visualize := true } }

/-- The default configuration with the `vehicle_class_map` entries
inserted in a different order — the same dict as a Python value. -/
def classMapShuffled : AppConfig :=
  { vehicle_class_map :=
      [("motorbike", "motorcycle"), ("truck", "truck"), ("bus", "bus"),
       ("car", "car"), ("motorcycle", "motorcycle")] }

/-- Rows of one bucket used by the upsert-idempotence witness. -/
def c5CountRows : List CountRow :=
  [{ run_id := "run-0", camera_id := "CAM_001", bucket_ts := 0, vehicle_type := "car",
     count := 2, source_video := "v.mp4" },
   { run_id := "run-0", camera_id := "CAM_001", bucket_ts := 0, vehicle_type := "bus",
     count := 1, source_video := "v.mp4" }]

def c5DensityRow : DensityRow :=
  { run_id := "run-0", camera_id := "CAM_001", bucket_ts := 0, total_vehicles := 3,
    density_score := mkRat 1 10, density_level := "low", bbox_occupancy := none,
    source_video := "v.mp4" }

def c5EmissionRow : EmissionRow :=
  { run_id := "run-0", camera_id := "CAM_001", bucket_ts := 0, estimated_co2_kg := mkRat 3 2,
    co2_low_kg := none, co2_high_kg := none, source_video := "v.mp4" }

/-- State and payload for the commit-loop witness: one `running` run,
no prior rows. -/
def c4State : DBState :=
  { runs := [{ run_id := "run-0", camera_id := "CAM_001", source_video := "v.mp4",
               config_hash := "h", started_at := "T0", ended_at := none,
               status := "running", error_message := none }] }

def c4Payload : BucketPayload :=
  { bucket_index := 0, bucket_ts := 0,
    counts_rows := [{ run_id := "run-0", camera_id := "CAM_001", bucket_ts := 0,
                      vehicle_type := "car", count := 2, source_video := "v.mp4" }],
    density_row := { run_id := "run-0", camera_id := "CAM_001", bucket_ts := 0,
                     total_vehicles := 2, density_score := mkRat 1 15,
                     density_level := "low", bbox_occupancy := none, source_video := "v.mp4" },
    emission_row := { run_id := "run-0", camera_id := "CAM_001", bucket_ts := 0,
                      estimated_co2_kg := 1, co2_low_kg := none, co2_high_kg := none,
                      source_video := "v.mp4" } }

/-- A list of `add_frame` calls applied to a fresh aggregator. -/
def applyFrames (bs : ℤ) (calls : List (ℚ × List Detection × Option (ℤ × ℤ))) : FrameAggregator :=
  calls.foldl (fun ag c => ag.add_frame c.1 c.2.1 c.2.2) { bucket_seconds := bs }

/-- Per-bucket bookkeeping invariant of the aggregator: every
accumulator has duplicate-free class keys and per-class counts summing
to its total. -/
def aggCountsConsistent (ag : FrameAggregator) : Prop :=
  ∀ e ∈ ag.buckets,
    ((e.2.counts.map Prod.fst).Nodup ∧ (e.2.counts.map Prod.snd).sum = e.2.total_vehicles)

/-- The `add_frame` calls of the spec's concrete two-bucket scenario. -/
def scenTruck : Detection := { class_name := "truck", confidence := 1, bbox := some (0, 0, 10, 10) }

def scenarioCalls : List (ℚ × List Detection × Option (ℤ × ℤ)) :=
  [(5, [scenCar], some (10, 10)), (10, [scenTruck], some (10, 10)), (70, [scenCar], some (10, 10))]

/-- A `failed` run whose stored `config_hash` is the digest the source
recomputes for the default configuration, so a re-invocation resumes it. -/
def c2Run : RunRow :=
  { run_id := "run-0", camera_id := "CAM_001", source_video := "v.mp4",
    config_hash := stableConfigHash {}, started_at := "T0",
    ended_at := some "T1", status := "failed", error_message := some "boom" }

/-- Checkpoint recording bucket 0 as committed for `c2Run`. -/
def c2Checkpoint : CheckpointRow :=
  { run_id := "run-0", last_bucket_ts := 0, bucket_index := 0, updated_at := "T1" }

def c2State : DBState := { runs := [c2Run], checkpoints := [c2Checkpoint] }

/-- A frame on which the detector raises `StopProcessing`: it is counted
as processed but never aggregated, so a run whose stream starts with it
produces zero buckets. -/
def c9StopFrame : FrameInput :=
  { ts := 5, width := 10, height := 10, outcome := .stop }

/-- A `completed` run for `("CAM_001", "v.mp4")` whose stored hash is the
recomputed digest of the default configuration, with its camera row. -/
def c3State : DBState :=
  { cameras := [{ camera_id := "CAM_001", location := some "Old yard",
                  latitude := none, longitude := none, notes := none }],
    runs := [{ run_id := "run-0", camera_id := "CAM_001", source_video := "v.mp4",
               config_hash := stableConfigHash {}, started_at := "T0",
               ended_at := some "T1", status := "completed", error_message := none }] }

/-- The resume scenario of `test_resume.py`: a frame inside the
committed bucket (t=10s) and two frames past the boundary. -/
def c2Frames : List FrameInput :=
  [{ ts := 10, width := 10, height := 10, outcome := .dets [scenCar] },
   { ts := 70, width := 10, height := 10, outcome := .dets [scenCar] },
   { ts := 130, width := 10, height := 10, outcome := .dets [scenTruck] }]

deriving instance DecidableEq for Except

/-! ## Bridge lemmas: the kernel-reducible arithmetic agrees with the
standard rational operations -/

theorem qAdd_eq (a b : ℚ) : qAdd a b = a + b := by
  have ha : (a.den : ℤ) ≠ 0 := Int.natCast_ne_zero.mpr a.den_nz
  have hb : (b.den : ℤ) ≠ 0 := Int.natCast_ne_zero.mpr b.den_nz
  rw [qAdd, Rat.mkRat_eq_divInt]
  push_cast
  rw [← Rat.divInt_add_divInt _ _ ha hb, Rat.num_divInt_den, Rat.num_divInt_den]

theorem qSub_eq (a b : ℚ) : qSub a b = a - b := by
  have ha : (a.den : ℤ) ≠ 0 := Int.natCast_ne_zero.mpr a.den_nz
  have hb : (b.den : ℤ) ≠ 0 := Int.natCast_ne_zero.mpr b.den_nz
  rw [qSub, Rat.mkRat_eq_divInt]
  push_cast
  rw [← Rat.divInt_sub_divInt _ _ ha hb, Rat.num_divInt_den, Rat.num_divInt_den]

theorem qMul_eq (a b : ℚ) : qMul a b = a * b := by
  rw [qMul, Rat.mkRat_eq_divInt]
  push_cast
  rw [← Rat.divInt_mul_divInt' a.num a.den b.num b.den, Rat.num_divInt_den, Rat.num_divInt_den]

theorem qDiv_eq (a b : ℚ) : qDiv a b = a / b := by
  rw [qDiv, Rat.mkRat_eq_divInt, Rat.div_def']
  rcases lt_or_le b.num 0 with h | h
  · rw [if_pos h]
    push_cast
    rw [abs_of_neg h]
    rw [show (a.num * (b.den : ℤ) * (-1)) = -(a.num * b.den) by ring,
        show ((a.den : ℤ) * -b.num) = -((a.den : ℤ) * b.num) by ring,
        Rat.divInt_neg, neg_neg]
  · rw [if_neg (not_lt.mpr h)]
    push_cast
    rw [abs_of_nonneg h, mul_one]

theorem qMin_eq (a b : ℚ) : qMin a b = min a b := by rw [qMin, min_def]

theorem qMax_eq (a b : ℚ) : qMax a b = max a b := by rw [qMax, max_def]

/-! ## C6 — density score and level -/

/-- C6 counterexample: as universally quantified over every
`total_vehicles`, the claim "the returned score is always in [0,1]"
fails — a negative count gives a negative score. -/
theorem C6_density_counterexample :
    ¬ (0 ≤ (compute_density_score (-1) 1 (mkRat 33 100) (mkRat 66 100)).density_score) := by
  decide

/-- C6 (amended): `compute_density_score` returns 0 when
`max_vehicles ≤ 0` and `min 1 (total/max)` otherwise; the score lies in
[0,1] whenever `total_vehicles ≥ 0`; and the level is `low` iff
`score ≤ low_max`, `medium` iff `low_max < score ≤ medium_max`, and
`high` otherwise (ties go to the lower category). -/
theorem C6_density_score_spec (tv mv : ℤ) (lm mm : ℚ) :
    ((mv ≤ 0 → (compute_density_score tv mv lm mm).density_score = 0) ∧
     (0 < mv → (compute_density_score tv mv lm mm).density_score = min 1 ((tv : ℚ) / (mv : ℚ)))) ∧
    (0 ≤ tv → 0 ≤ (compute_density_score tv mv lm mm).density_score ∧
      (compute_density_score tv mv lm mm).density_score ≤ 1) ∧
    ((compute_density_score tv mv lm mm).density_level = "low" ↔
      (compute_density_score tv mv lm mm).density_score ≤ lm) ∧
    ((compute_density_score tv mv lm mm).density_level = "medium" ↔
      (lm < (compute_density_score tv mv lm mm).density_score ∧
       (compute_density_score tv mv lm mm).density_score ≤ mm)) ∧
    ((compute_density_score tv mv lm mm).density_level = "high" ↔
      (lm < (compute_density_score tv mv lm mm).density_score ∧
       mm < (compute_density_score tv mv lm mm).density_score)) := by
  have hscore : (compute_density_score tv mv lm mm).density_score =
      if mv ≤ 0 then 0 else min 1 ((tv : ℚ) / (mv : ℚ)) := by
    simp only [compute_density_score]
    split
    · rfl
    · rw [qMin_eq, qDiv_eq]
  have hlevel : (compute_density_score tv mv lm mm).density_level =
      (if (compute_density_score tv mv lm mm).density_score ≤ lm then "low"
       else if (compute_density_score tv mv lm mm).density_score ≤ mm then "medium"
       else "high") := by
    simp only [compute_density_score]
  refine ⟨⟨fun h => by rw [hscore, if_pos h], fun h => by rw [hscore, if_neg (not_le.mpr h)]⟩,
    fun htv => ?_, ?_, ?_, ?_⟩
  · rw [hscore]
    split
    · exact ⟨le_refl 0, by norm_num⟩
    · rename_i hmv
      constructor
      · exact le_min (by norm_num)
          (div_nonneg (by exact_mod_cast htv)
            (by exact_mod_cast (le_of_lt (not_le.mp hmv))))
      · exact min_le_left _ _
  · rw [hlevel]
    rcases le_or_lt (compute_density_score tv mv lm mm).density_score lm with h | h
    · simp [h]
    · rcases le_or_lt (compute_density_score tv mv lm mm).density_score mm with h2 | h2
      · simp [not_le.mpr h, h2, not_le_of_lt h]
      · simp [not_le.mpr h, not_le.mpr h2, not_le_of_lt h]
  · rw [hlevel]
    rcases le_or_lt (compute_density_score tv mv lm mm).density_score lm with h | h
    · simp [h, not_lt.mpr h]
    · rcases le_or_lt (compute_density_score tv mv lm mm).density_score mm with h2 | h2
      · simp [not_le.mpr h, h2, h]
      · simp [not_le.mpr h, not_le.mpr h2, not_le_of_lt h2]
  · rw [hlevel]
    rcases le_or_lt (compute_density_score tv mv lm mm).density_score lm with h | h
    · simp [h, not_lt.mpr h]
    · rcases le_or_lt (compute_density_score tv mv lm mm).density_score mm with h2 | h2
      · simp [not_le.mpr h, h2, not_lt.mpr h2]
      · simp [not_le.mpr h, not_le.mpr h2, h, h2]

/-- Witness for C6: at `total=33, max=100` with the default thresholds
the score is in [0,1] and a score of exactly 0.33 classifies as `low`;
at `total=66` a score of exactly 0.66 classifies as `medium`. -/
theorem C6_density_witness :
    (0 ≤ (compute_density_score 33 100 (mkRat 33 100) (mkRat 66 100)).density_score ∧
     (compute_density_score 33 100 (mkRat 33 100) (mkRat 66 100)).density_score ≤ 1) ∧
    (compute_density_score 33 100 (mkRat 33 100) (mkRat 66 100)).density_level = "low" ∧
    (compute_density_score 66 100 (mkRat 33 100) (mkRat 66 100)).density_level = "medium" := by
  have h33 := C6_density_score_spec 33 100 (mkRat 33 100) (mkRat 66 100)
  have h66 := C6_density_score_spec 66 100 (mkRat 33 100) (mkRat 66 100)
  exact ⟨h33.2.1 (by decide), (h33.2.2.1).mpr (by decide),
    (h66.2.2.2.1).mpr ⟨by decide, by decide⟩⟩

/-! ## C7 — CO2 estimation -/

/-- C7: `estimate_co2_kg` sums `count * factor * (bucket_seconds/60)`
over the classes present in both maps, classes without a configured
factor contributing zero without error; and the spec's concrete scenario
evaluates to 2.8. -/
theorem C7_estimate_co2 (counts : List (String × ℤ)) (factors : List (String × ℚ)) (bs : ℤ) :
    estimate_co2_kg counts factors bs =
      (counts.map (fun p =>
        match alistGet? factors p.1 with
        | none => 0
        | some f => (p.2 : ℚ) * f * ((bs : ℚ) / 60))).sum ∧
    estimate_co2_kg [("car", 2), ("bus", 1)] [("car", mkRat 2 10), ("bus", 1)] 120 =
      mkRat 28 10 := by
  constructor
  · have key : ∀ (l : List (String × ℤ)) (a : ℚ),
        l.foldl (fun total p =>
          match alistGet? factors p.1 with
          | none => total
          | some factor => qAdd total (qMul (qMul (p.2 : ℚ) factor) (qDiv (bs : ℚ) 60))) a
        = a + (l.map (fun p =>
            match alistGet? factors p.1 with
            | none => 0
            | some f => (p.2 : ℚ) * f * ((bs : ℚ) / 60))).sum := by
      intro l
      induction l with
      | nil => intro a; simp
      | cons p t ih =>
        intro a
        simp only [List.foldl_cons, List.map_cons, List.sum_cons]
        cases h : alistGet? factors p.1 with
        | none =>
          simp only [h]
          rw [ih]
          ring
        | some f =>
          simp only [h]
          rw [ih, qAdd_eq, qMul_eq, qMul_eq, qDiv_eq]
          ring
    simp only [estimate_co2_kg]
    rw [key counts 0, zero_add]
  · decide

/-! ## C1 — user-requested stop -/

/-- C1: behaviour of the code at the failing input. After the detector
raises `StopProcessing` at t=70s (bucket 0 already accumulated from the
frame at t=5s), `run_pipeline` returns normally, commits bucket 0, and
marks the run `completed` — no run ever carries the status `stopped`
demanded by the claim. -/
theorem C1_stop_marks_run_completed :
    (let out := runPipelineTrace {} true "video.mp4" "CAM_001" {} none none none none none 0
        stopScenarioFrames "run-1" "2024-01-01T00:00:00+00:00" (fun _ => false)
     out.1 = .ok () ∧
     out.2.1.runs.map RunRow.status = ["completed"] ∧
     out.2.1.checkpoints.map CheckpointRow.bucket_index = [0] ∧
     ∀ r ∈ out.2.1.runs, r.status ≠ "stopped") := by
  decide

/-! ## C8 — counts sum to the total, for every detection sequence -/

theorem alistSet_cons_of_ne {κ α : Type} [BEq κ] (p : κ × α) (t : List (κ × α)) (k : κ) (v : α)
    (h : (p.1 == k) = false) : alistSet (p :: t) k v = p :: alistSet t k v := by
  simp only [alistSet, List.any_cons, h, Bool.false_or]
  split
  · simp [h]
  · simp

theorem alistSet_keys_of_mem {κ α : Type} [BEq κ] [LawfulBEq κ]
    (m : List (κ × α)) (k : κ) (v : α) (hmem : m.any (fun p => p.1 == k) = true) :
    (alistSet m k v).map Prod.fst = m.map Prod.fst := by
  rw [alistSet, if_pos hmem, List.map_map]
  apply List.map_congr_left
  intro p _
  by_cases h : (p.1 == k) = true
  · simp [h, (beq_iff_eq.mp h).symm]
  · simp [Bool.not_eq_true] at h
    simp [h]

theorem alistSet_keys_of_not_mem {κ α : Type} [BEq κ]
    (m : List (κ × α)) (k : κ) (v : α) (hmem : m.any (fun p => p.1 == k) = false) :
    (alistSet m k v).map Prod.fst = m.map Prod.fst ++ [k] := by
  rw [alistSet, if_neg (by simp [hmem]), List.map_append]
  rfl

theorem alistSet_keys_nodup {κ α : Type} [BEq κ] [LawfulBEq κ]
    (m : List (κ × α)) (k : κ) (v : α) (hk : (m.map Prod.fst).Nodup) :
    ((alistSet m k v).map Prod.fst).Nodup := by
  cases hmem : m.any (fun p => p.1 == k)
  · rw [alistSet_keys_of_not_mem m k v hmem]
    have hk_not : k ∉ m.map Prod.fst := by
      intro hc
      rcases List.mem_map.mp hc with ⟨p, hp, hpk⟩
      have : m.any (fun p => p.1 == k) = true :=
        List.any_eq_true.mpr ⟨p, hp, by simp [hpk]⟩
      simp [this] at hmem
    rw [List.nodup_append]
    refine ⟨hk, List.nodup_singleton k, ?_⟩
    intro a ha hb
    rw [List.mem_singleton] at hb
    subst hb
    exact hk_not ha
  · rw [alistSet_keys_of_mem m k v hmem]
    exact hk

theorem vsum_alistSet_add {κ : Type} [BEq κ] [LawfulBEq κ]
    (m : List (κ × ℕ)) (k : κ) (n : ℕ) (hk : (m.map Prod.fst).Nodup) :
    ((alistSet m k (alistGetD m k 0 + n)).map Prod.snd).sum = (m.map Prod.snd).sum + n := by
  induction m with
  | nil => simp [alistSet, alistGetD, alistGet?]
  | cons p t ih =>
    cases hpk : (p.1 == k)
    · rw [alistSet_cons_of_ne p t k _ hpk]
      have hget : alistGetD (p :: t) k 0 = alistGetD t k 0 := by
        simp [alistGetD, alistGet?, List.find?_cons, hpk]
      rw [hget] at *
      simp only [List.map_cons, List.sum_cons]
      rw [ih (by simpa using (List.nodup_cons.mp (by simpa using hk)).2)]
      omega
    · have hkey : p.1 = k := beq_iff_eq.mp hpk
      have hget : alistGetD (p :: t) k 0 = p.2 := by
        simp [alistGetD, alistGet?, List.find?_cons, hpk]
      have hany : (p :: t).any (fun q => q.1 == k) = true := by simp [hpk]
      rw [alistSet, if_pos hany, hget]
      have htail : ∀ q ∈ t, (q.1 == k) = false := by
        intro q hq
        have hknotin : p.1 ∉ t.map Prod.fst := (List.nodup_cons.mp (by simpa using hk)).1
        by_contra hc
        simp only [Bool.not_eq_false] at hc
        exact hknotin (hkey ▸ beq_iff_eq.mp hc ▸ List.mem_map_of_mem Prod.fst hq)
      have hmapt : t.map (fun q => if q.1 == k then (k, p.2 + n) else q) = t := by
        apply List.map_congr_left ?_ |>.trans (List.map_id t)
        intro q hq
        simp [htail q hq]
      simp [hpk, hmapt]
      omega

theorem detections_by_class_step (l : List Detection) :
    ∀ (m : List (String × ℕ)), (m.map Prod.fst).Nodup →
      (((l.foldl (fun counts d =>
          alistSet counts d.class_name (alistGetD counts d.class_name 0 + 1)) m).map
            Prod.fst).Nodup ∧
       ((l.foldl (fun counts d =>
          alistSet counts d.class_name (alistGetD counts d.class_name 0 + 1)) m).map
            Prod.snd).sum = (m.map Prod.snd).sum + l.length) := by
  induction l with
  | nil => intro m hm; simpa using hm
  | cons d t ih =>
    intro m hm
    simp only [List.foldl_cons, List.length_cons]
    rcases ih (alistSet m d.class_name (alistGetD m d.class_name 0 + 1))
      (alistSet_keys_nodup m d.class_name _ hm) with ⟨h1, h2⟩
    refine ⟨h1, ?_⟩
    rw [h2, vsum_alistSet_add m d.class_name 1 hm]
    omega

theorem detections_by_class_sum (l : List Detection) :
    ((detections_by_class l).map Prod.fst).Nodup ∧
    ((detections_by_class l).map Prod.snd).sum = l.length := by
  have h := detections_by_class_step l [] (by simp)
  simpa [detections_by_class] using h

theorem counts_merge_step (counts : List (String × ℕ)) :
    ∀ (m : List (String × ℕ)), (m.map Prod.fst).Nodup →
      (((counts.foldl (fun acc p => alistSet acc p.1 (alistGetD acc p.1 0 + p.2)) m).map
          Prod.fst).Nodup ∧
       ((counts.foldl (fun acc p => alistSet acc p.1 (alistGetD acc p.1 0 + p.2)) m).map
          Prod.snd).sum = (m.map Prod.snd).sum + (counts.map Prod.snd).sum) := by
  induction counts with
  | nil => intro m hm; simpa using hm
  | cons p t ih =>
    intro m hm
    simp only [List.foldl_cons, List.map_cons, List.sum_cons]
    rcases ih (alistSet m p.1 (alistGetD m p.1 0 + p.2))
      (alistSet_keys_nodup m p.1 _ hm) with ⟨h1, h2⟩
    refine ⟨h1, ?_⟩
    rw [h2, vsum_alistSet_add m p.1 p.2 hm]
    omega

theorem add_frame_consistent (ag : FrameAggregator) (ts : ℚ) (dets : List Detection)
    (fs : Option (ℤ × ℤ)) (h : aggCountsConsistent ag) :
    aggCountsConsistent (ag.add_frame ts dets fs) := by
  intro e he
  simp only [FrameAggregator.add_frame] at he
  set idx := qFloor (qDiv ts (ag.bucket_seconds : ℚ)) with hidx
  set bucket := alistGetD ag.buckets idx {} with hbucket
  have hbucket_ok : (bucket.counts.map Prod.fst).Nodup ∧
      (bucket.counts.map Prod.snd).sum = bucket.total_vehicles := by
    rw [hbucket]
    unfold alistGetD alistGet?
    cases hf : ag.buckets.find? (fun p => p.1 == idx) with
    | none => simp
    | some p =>
      have := List.mem_of_find?_eq_some hf
      simpa using h p this
  rcases hbucket_ok with ⟨hnd, hsum⟩
  have hmerge := counts_merge_step (detections_by_class (dedupe_detections dets))
    bucket.counts hnd
  rcases hmerge with ⟨hnd', hsum'⟩
  have hdbc := detections_by_class_sum (dedupe_detections dets)
  -- the updated entry or an untouched old entry
  rw [alistSet] at he
  split at he
  · rcases List.mem_map.mp he with ⟨p, hp, hpe⟩
    by_cases hk : (p.1 == idx) = true
    · rw [if_pos hk] at hpe
      subst hpe
      exact ⟨hnd', hsum'.trans (by rw [hsum, hdbc.2])⟩
    · rw [Bool.not_eq_true] at hk
      rw [if_neg (by simp [hk])] at hpe
      subst hpe
      exact h p hp
  · rcases List.mem_append.mp he with hold | hnew
    · exact h e hold
    · rcases List.mem_singleton.mp hnew with rfl
      exact ⟨hnd', hsum'.trans (by rw [hsum, hdbc.2])⟩

theorem applyFrames_consistent (bs : ℤ)
    (calls : List (ℚ × List Detection × Option (ℤ × ℤ))) :
    aggCountsConsistent (applyFrames bs calls) := by
  rw [applyFrames]
  have base : aggCountsConsistent { bucket_seconds := bs } := by
    intro e he
    simp at he
  generalize hag : ({ bucket_seconds := bs } : FrameAggregator) = ag at base
  clear hag
  induction calls generalizing ag with
  | nil => simpa using base
  | cons c t ih =>
    simp only [List.foldl_cons]
    exact ih _ (add_frame_consistent ag c.1 c.2.1 c.2.2 base)

/-- C8: for every sequence of `add_frame` calls, every bucket emitted
by `finalize` has per-class counts summing to its `total_vehicles`. -/
theorem C8_counts_sum_total (bs : ℤ) (hbs : 0 < bs)
    (calls : List (ℚ × List Detection × Option (ℤ × ℤ))) (start : ℤ)
    (b : BucketAggregate) (hb : b ∈ (applyFrames bs calls).finalize start) :
    (b.counts.map Prod.snd).sum = b.total_vehicles := by
  have hcons := applyFrames_consistent bs calls
  simp only [FrameAggregator.finalize] at hb
  rcases List.mem_map.mp hb with ⟨idx, _, hbe⟩
  subst hbe
  simp only
  set bucket := alistGetD (applyFrames bs calls).buckets idx {} with hbucket
  have : (bucket.counts.map Prod.snd).sum = bucket.total_vehicles := by
    rw [hbucket]
    unfold alistGetD alistGet?
    cases hf : (applyFrames bs calls).buckets.find? (fun p => p.1 == idx) with
    | none => simp
    | some p =>
      have := List.mem_of_find?_eq_some hf
      simpa using (hcons p this).2
  exact this

/-- Witness for C8: the spec's concrete scenario (frames at 5s, 10s,
70s with bucket width 60) — its first emitted bucket satisfies the
invariant. -/
theorem C8_counts_sum_witness :
    (0 : ℤ) < 60 ∧
    ((({ bucket_index := 0, bucket_ts := 0, counts := [("car", 1), ("truck", 1)],
         total_vehicles := 2, bbox_occupancy := some 1 } : BucketAggregate) ∈
        (applyFrames 60 scenarioCalls).finalize 0) ∧
     ((([("car", 1), ("truck", 1)] : List (String × ℕ)).map Prod.snd).sum = 2)) := by
  refine ⟨by decide, by decide, ?_⟩
  exact C8_counts_sum_total 60 (by decide) scenarioCalls 0
    { bucket_index := 0, bucket_ts := 0, counts := [("car", 1), ("truck", 1)],
      total_vehicles := 2, bbox_occupancy := some 1 } (by decide)

/-! ## Generic theory of `upsertRow`

`keyEq` is the conflict-target comparison and `upd` the `DO UPDATE SET`
clause. The hypotheses state that `keyEq` is an equivalence on keys and
that `upd` only touches non-key fields, idempotently. -/

section UpsertTheory

variable {α : Type} (keyEq : α → α → Bool) (upd : α → α → α)

theorem upsertRow_any_self
    (Hrefl : ∀ r, keyEq r r = true)
    (HupdKey : ∀ s t r, keyEq s (upd t r) = keyEq s t)
    (T : List α) (r : α) :
    (upsertRow keyEq upd T r).any (fun t => keyEq r t) = true := by
  rw [upsertRow]
  split
  · rename_i hany
    rcases List.any_eq_true.mp hany with ⟨t, ht, hkt⟩
    apply List.any_eq_true.mpr
    refine ⟨if keyEq r t then upd t r else t, List.mem_map_of_mem _ ht, ?_⟩
    rw [if_pos hkt, HupdKey]
    exact hkt
  · apply List.any_eq_true.mpr
    exact ⟨r, by simp, Hrefl r⟩

theorem upsertRow_any_other
    (HupdKey : ∀ s t r, keyEq s (upd t r) = keyEq s t)
    (T : List α) (x r : α) (hrx : keyEq r x = false) :
    (upsertRow keyEq upd T x).any (fun t => keyEq r t) = T.any (fun t => keyEq r t) := by
  rw [upsertRow]
  split
  · rw [List.any_map]
    congr 1
    funext t
    simp only [Function.comp]
    split
    · rw [HupdKey]
    · rfl
  · simp [hrx]

/-- Rows matching `r`'s key are `upd · r`-stable. -/
def updStable (r : α) (T : List α) : Prop :=
  ∀ t ∈ T, keyEq r t = true → upd t r = t

theorem updStable_upsert_self
    (HupdIdem : ∀ t r, upd (upd t r) r = upd t r)
    (HupdSelf : ∀ r, upd r r = r)
    (T : List α) (r : α) :
    updStable keyEq upd r (upsertRow keyEq upd T r) := by
  intro t ht hkt
  rw [upsertRow] at ht
  split at ht
  · rcases List.mem_map.mp ht with ⟨t0, _, ht0⟩
    by_cases hk0 : (keyEq r t0) = true
    · rw [if_pos hk0] at ht0
      subst ht0
      exact HupdIdem t0 r
    · rw [if_neg hk0] at ht0
      subst ht0
      exact absurd hkt hk0
  · rename_i hany
    rcases List.mem_append.mp ht with hmem | hmem
    · exfalso
      have : T.any (fun t => keyEq r t) = true := List.any_eq_true.mpr ⟨t, hmem, hkt⟩
      simp [this] at hany
    · rcases List.mem_singleton.mp hmem with rfl
      exact HupdSelf t

theorem updStable_upsert_other
    (Hsymm : ∀ a b, keyEq a b = keyEq b a)
    (Htrans : ∀ a b c, keyEq a b = true → keyEq b c = true → keyEq a c = true)
    (HupdKey : ∀ s t r, keyEq s (upd t r) = keyEq s t)
    (T : List α) (x r : α) (hrx : keyEq r x = false)
    (h : updStable keyEq upd r T) :
    updStable keyEq upd r (upsertRow keyEq upd T x) := by
  intro t ht hkt
  rw [upsertRow] at ht
  split at ht
  · rcases List.mem_map.mp ht with ⟨t0, ht0mem, ht0⟩
    by_cases hk0 : (keyEq x t0) = true
    · rw [if_pos hk0] at ht0
      subst ht0
      exfalso
      -- key r = key (upd t0 x) = key t0 = key x, contradicting hrx
      have h1 : keyEq r t0 = true := by rw [HupdKey] at hkt; exact hkt
      have h2 : keyEq t0 x = true := by rw [Hsymm] at hk0; exact hk0
      exact absurd (Htrans r t0 x h1 h2) (by simp [hrx])
    · rw [if_neg hk0] at ht0
      subst ht0
      exact h t0 ht0mem hkt
  · rcases List.mem_append.mp ht with hmem | hmem
    · exact h t hmem hkt
    · rcases List.mem_singleton.mp hmem with rfl
      exact absurd hkt (by simp [hrx])

theorem upsertRow_of_stable
    (T : List α) (r : α)
    (hany : T.any (fun t => keyEq r t) = true)
    (hstable : updStable keyEq upd r T) :
    upsertRow keyEq upd T r = T := by
  rw [upsertRow, if_pos hany]
  apply List.map_congr_left ?_ |>.trans (List.map_id T)
  intro t ht
  split
  · rename_i hk
    exact hstable t ht hk
  · rfl

theorem foldl_upsert_any_other
    (HupdKey : ∀ s t r, keyEq s (upd t r) = keyEq s t)
    (rows : List α) (r : α) (hall : ∀ x ∈ rows, keyEq r x = false) :
    ∀ T : List α,
      (rows.foldl (upsertRow keyEq upd) T).any (fun t => keyEq r t) =
        T.any (fun t => keyEq r t) := by
  induction rows with
  | nil => intro T; rfl
  | cons x rest ih =>
    intro T
    simp only [List.foldl_cons]
    rw [ih (fun y hy => hall y (List.mem_cons_of_mem x hy)),
      upsertRow_any_other keyEq upd HupdKey T x r (hall x (List.mem_cons_self x rest))]

theorem foldl_upsert_stable
    (Hsymm : ∀ a b, keyEq a b = keyEq b a)
    (Htrans : ∀ a b c, keyEq a b = true → keyEq b c = true → keyEq a c = true)
    (HupdKey : ∀ s t r, keyEq s (upd t r) = keyEq s t)
    (rows : List α) (r : α) (hall : ∀ x ∈ rows, keyEq r x = false) :
    ∀ T : List α, updStable keyEq upd r T →
      updStable keyEq upd r (rows.foldl (upsertRow keyEq upd) T) := by
  induction rows with
  | nil => intro T h; exact h
  | cons x rest ih =>
    intro T h
    simp only [List.foldl_cons]
    exact ih (fun y hy => hall y (List.mem_cons_of_mem x hy)) _
      (updStable_upsert_other keyEq upd Hsymm Htrans HupdKey T x r
        (hall x (List.mem_cons_self x rest)) h)

/-- Folding the same row list (pairwise distinct keys) twice equals
folding it once: a retried identical commit converges. -/
theorem foldl_upsert_idem
    (Hrefl : ∀ r, keyEq r r = true)
    (Hsymm : ∀ a b, keyEq a b = keyEq b a)
    (Htrans : ∀ a b c, keyEq a b = true → keyEq b c = true → keyEq a c = true)
    (HupdKey : ∀ s t r, keyEq s (upd t r) = keyEq s t)
    (HupdIdem : ∀ t r, upd (upd t r) r = upd t r)
    (HupdSelf : ∀ r, upd r r = r)
    (rows : List α) (hd : rows.Pairwise (fun a b => keyEq a b = false)) :
    ∀ T : List α,
      rows.foldl (upsertRow keyEq upd) (rows.foldl (upsertRow keyEq upd) T) =
        rows.foldl (upsertRow keyEq upd) T := by
  induction rows with
  | nil => intro T; rfl
  | cons r rest ih =>
    intro T
    rcases List.pairwise_cons.mp hd with ⟨hhead, htail⟩
    simp only [List.foldl_cons]
    have hany : (rest.foldl (upsertRow keyEq upd) (upsertRow keyEq upd T r)).any
        (fun t => keyEq r t) = true := by
      rw [foldl_upsert_any_other keyEq upd HupdKey rest r hhead]
      exact upsertRow_any_self keyEq upd Hrefl HupdKey T r
    have hstable : updStable keyEq upd r
        (rest.foldl (upsertRow keyEq upd) (upsertRow keyEq upd T r)) :=
      foldl_upsert_stable keyEq upd Hsymm Htrans HupdKey rest r hhead _
        (updStable_upsert_self keyEq upd HupdIdem HupdSelf T r)
    rw [upsertRow_of_stable keyEq upd _ r hany hstable]
    exact ih htail (upsertRow keyEq upd T r)

theorem upsertRow_pairwise
    (Hsymm : ∀ a b, keyEq a b = keyEq b a)
    (HupdKey : ∀ s t r, keyEq s (upd t r) = keyEq s t)
    (T : List α) (r : α) (hT : T.Pairwise (fun a b => keyEq a b = false)) :
    (upsertRow keyEq upd T r).Pairwise (fun a b => keyEq a b = false) := by
  have keyEq_upd_left : ∀ t r s, keyEq (upd t r) s = keyEq t s := by
    intro t r s
    rw [Hsymm, HupdKey, Hsymm]
  rw [upsertRow]
  split
  · refine List.Pairwise.map _ ?_ hT
    intro a b hab
    show keyEq (if keyEq r a then upd a r else a) (if keyEq r b then upd b r else b) = false
    by_cases ha : (keyEq r a) = true
    · by_cases hb : (keyEq r b) = true
      · rw [if_pos ha, if_pos hb, keyEq_upd_left, HupdKey]; exact hab
      · rw [if_pos ha, if_neg hb, keyEq_upd_left]; exact hab
    · by_cases hb : (keyEq r b) = true
      · rw [if_neg ha, if_pos hb, HupdKey]; exact hab
      · rw [if_neg ha, if_neg hb]; exact hab
  · rename_i hany
    rw [List.pairwise_append]
    refine ⟨hT, List.pairwise_singleton _ _, ?_⟩
    intro a ha b hb
    rw [List.mem_singleton] at hb
    subst hb
    rw [Hsymm]
    by_contra hc
    rw [Bool.not_eq_false] at hc
    have : T.any (fun t => keyEq b t) = true := List.any_eq_true.mpr ⟨a, ha, hc⟩
    simp [this] at hany

theorem foldl_upsert_pairwise
    (Hsymm : ∀ a b, keyEq a b = keyEq b a)
    (HupdKey : ∀ s t r, keyEq s (upd t r) = keyEq s t)
    (rows : List α) :
    ∀ T : List α, T.Pairwise (fun a b => keyEq a b = false) →
      (rows.foldl (upsertRow keyEq upd) T).Pairwise (fun a b => keyEq a b = false) := by
  induction rows with
  | nil => intro T h; exact h
  | cons x rest ih =>
    intro T h
    exact ih _ (upsertRow_pairwise keyEq upd Hsymm HupdKey T x h)

theorem countP_key_of_pairwise
    (Hsymm : ∀ a b, keyEq a b = keyEq b a)
    (Htrans : ∀ a b c, keyEq a b = true → keyEq b c = true → keyEq a c = true)
    (r : α) :
    ∀ T : List α, T.Pairwise (fun a b => keyEq a b = false) →
      T.countP (fun t => keyEq r t) =
        (if T.any (fun t => keyEq r t) then 1 else 0) := by
  intro T
  induction T with
  | nil => intro _; rfl
  | cons a t ih =>
    intro hT
    rcases List.pairwise_cons.mp hT with ⟨hhead, htail⟩
    rw [List.countP_cons, ih htail]
    cases hra : keyEq r a
    · simp [List.any_cons, hra]
    · have hzero : t.any (fun x => keyEq r x) = false := by
        rw [Bool.eq_false_iff]
        intro hc
        rcases List.any_eq_true.mp hc with ⟨x, hx, hrx⟩
        have hax : keyEq a x = true := by
          refine Htrans a r x ?_ hrx
          rw [Hsymm]
          exact hra
        simp [hhead x hx] at hax
      simp [List.any_cons, hra, hzero]

theorem upsertRow_countP_other
    (HupdKey : ∀ s t r, keyEq s (upd t r) = keyEq s t)
    (T : List α) (x r : α) (hrx : keyEq r x = false) :
    (upsertRow keyEq upd T x).countP (fun t => keyEq r t) =
      T.countP (fun t => keyEq r t) := by
  rw [upsertRow]
  split
  · rw [List.countP_map]
    apply List.countP_congr
    intro t _
    simp only [Function.comp]
    split
    · rw [HupdKey]
    · rfl
  · rw [List.countP_append]
    simp [hrx]

theorem foldl_upsert_countP_other
    (HupdKey : ∀ s t r, keyEq s (upd t r) = keyEq s t)
    (rows : List α) (r : α) (hall : ∀ x ∈ rows, keyEq r x = false) :
    ∀ T : List α,
      (rows.foldl (upsertRow keyEq upd) T).countP (fun t => keyEq r t) =
        T.countP (fun t => keyEq r t) := by
  induction rows with
  | nil => intro T; rfl
  | cons x rest ih =>
    intro T
    simp only [List.foldl_cons]
    rw [ih (fun y hy => hall y (List.mem_cons_of_mem x hy)),
      upsertRow_countP_other keyEq upd HupdKey T x r (hall x (List.mem_cons_self x rest))]

/-- After folding pairwise-distinct rows into a key-unique table, every
row's key occurs exactly once. -/
theorem foldl_upsert_countP_one
    (Hrefl : ∀ r, keyEq r r = true)
    (Hsymm : ∀ a b, keyEq a b = keyEq b a)
    (Htrans : ∀ a b c, keyEq a b = true → keyEq b c = true → keyEq a c = true)
    (HupdKey : ∀ s t r, keyEq s (upd t r) = keyEq s t)
    (rows : List α) (hd : rows.Pairwise (fun a b => keyEq a b = false)) :
    ∀ T : List α, T.Pairwise (fun a b => keyEq a b = false) →
      ∀ r ∈ rows,
        (rows.foldl (upsertRow keyEq upd) T).countP (fun t => keyEq r t) = 1 := by
  induction rows with
  | nil => intro T _ r hr; exact absurd hr (List.not_mem_nil r)
  | cons x rest ih =>
    intro T hT r hr
    rcases List.pairwise_cons.mp hd with ⟨hhead, htail⟩
    simp only [List.foldl_cons]
    rcases List.mem_cons.mp hr with rfl | hmem
    · rw [foldl_upsert_countP_other keyEq upd HupdKey rest r hhead]
      rw [countP_key_of_pairwise keyEq Hsymm Htrans r _
        (upsertRow_pairwise keyEq upd Hsymm HupdKey T r hT)]
      rw [upsertRow_any_self keyEq upd Hrefl HupdKey T r]
      rfl
    · exact ih htail _ (upsertRow_pairwise keyEq upd Hsymm HupdKey T x hT) r hmem

end UpsertTheory

/-! ## C5 — idempotent bucket-row upserts -/

theorem countRowKeyEq_iff (a b : CountRow) :
    countRowKeyEq a b = true ↔ countKey a = countKey b := by
  simp [countRowKeyEq, countKey, Prod.ext_iff, and_assoc]

theorem densityRowKeyEq_iff (a b : DensityRow) :
    densityRowKeyEq a b = true ↔ densityKey a = densityKey b := by
  simp [densityRowKeyEq, densityKey, Prod.ext_iff]

theorem emissionRowKeyEq_iff (a b : EmissionRow) :
    emissionRowKeyEq a b = true ↔ emissionKey a = emissionKey b := by
  simp [emissionRowKeyEq, emissionKey, Prod.ext_iff]

theorem keyEq_symm_of_iff {α κ : Type} (keyEq : α → α → Bool) (key : α → κ)
    (hiff : ∀ a b, keyEq a b = true ↔ key a = key b) (a b : α) :
    keyEq a b = keyEq b a := by
  by_cases h : key a = key b
  · rw [(hiff a b).mpr h, (hiff b a).mpr h.symm]
  · rw [Bool.eq_false_iff.mpr (fun hc => h ((hiff a b).mp hc)),
      Bool.eq_false_iff.mpr (fun hc => h ((hiff b a).mp hc).symm)]

theorem keyEq_trans_of_iff {α κ : Type} (keyEq : α → α → Bool) (key : α → κ)
    (hiff : ∀ a b, keyEq a b = true ↔ key a = key b) (a b c : α)
    (h1 : keyEq a b = true) (h2 : keyEq b c = true) : keyEq a c = true :=
  (hiff a c).mpr (((hiff a b).mp h1).trans ((hiff b c).mp h2))

theorem keyEq_refl_of_iff {α κ : Type} (keyEq : α → α → Bool) (key : α → κ)
    (hiff : ∀ a b, keyEq a b = true ↔ key a = key b) (a : α) :
    keyEq a a = true := (hiff a a).mpr rfl

theorem pairwise_keyEq_false {α κ : Type} (keyEq : α → α → Bool) (key : α → κ)
    (hiff : ∀ a b, keyEq a b = true ↔ key a = key b) (l : List α)
    (h : l.Pairwise (fun a b => key a ≠ key b)) :
    l.Pairwise (fun a b => keyEq a b = false) :=
  h.imp (fun hab => Bool.eq_false_iff.mpr (fun hc => hab ((hiff _ _).mp hc)))

theorem insert_vehicle_counts_eq (st : DBState) (rows : List CountRow) (run_id : String)
    (hrid : run_id ≠ "")
    (hrun : st.runs.any (fun r => r.run_id == run_id) = true)
    (hr : ∀ r ∈ rows, r.run_id = run_id) :
    insert_vehicle_counts st rows run_id =
      .ok { st with counts := rows.foldl (upsertRow countRowKeyEq countRowUpd) st.counts } := by
  have hall : rows.all (fun r => r.run_id == run_id) = true :=
    List.all_eq_true.mpr (fun r h => beq_iff_eq.mpr (hr r h))
  by_cases hnil : rows = []
  · subst hnil
    simp only [insert_vehicle_counts]
    rfl
  · simp only [insert_vehicle_counts, hnil, if_neg, hrid, ensure_run_exists, hrun, checkRowRunIds, hall,
      if_false, ite_false, ite_true, if_true]
    simp [hnil, hrid, hrun, hall]
    rfl

theorem insert_density_eq (st : DBState) (rows : List DensityRow) (run_id : String)
    (hrid : run_id ≠ "")
    (hrun : st.runs.any (fun r => r.run_id == run_id) = true)
    (hr : ∀ r ∈ rows, r.run_id = run_id) :
    insert_density st rows run_id =
      .ok { st with density := rows.foldl (upsertRow densityRowKeyEq densityRowUpd) st.density } := by
  have hall : rows.all (fun r => r.run_id == run_id) = true :=
    List.all_eq_true.mpr (fun r h => beq_iff_eq.mpr (hr r h))
  by_cases hnil : rows = []
  · subst hnil
    simp only [insert_density]
    rfl
  · simp only [insert_density, hnil, if_neg, hrid, ensure_run_exists, hrun, checkRowRunIds, hall,
      if_false, ite_false, ite_true, if_true]
    simp [hnil, hrid, hrun, hall]
    rfl

theorem insert_emissions_eq (st : DBState) (rows : List EmissionRow) (run_id : String)
    (hrid : run_id ≠ "")
    (hrun : st.runs.any (fun r => r.run_id == run_id) = true)
    (hr : ∀ r ∈ rows, r.run_id = run_id) :
    insert_emissions st rows run_id =
      .ok { st with emissions := rows.foldl (upsertRow emissionRowKeyEq emissionRowUpd) st.emissions } := by
  have hall : rows.all (fun r => r.run_id == run_id) = true :=
    List.all_eq_true.mpr (fun r h => beq_iff_eq.mpr (hr r h))
  by_cases hnil : rows = []
  · subst hnil
    simp only [insert_emissions]
    rfl
  · simp only [insert_emissions, hnil, if_neg, hrid, ensure_run_exists, hrun, checkRowRunIds, hall,
      if_false, ite_false, ite_true, if_true]
    simp [hnil, hrid, hrun, hall]
    rfl

/-- C5: committing the same rows twice through `insert_vehicle_counts`,
`insert_density` and `insert_emissions` equals committing them once, and
after the (re-)commit each key occurs in exactly one row — the upserts
are idempotent and never duplicate. -/
theorem C5_upsert_idempotent (st : DBState) (run_id : String)
    (crows : List CountRow) (drows : List DensityRow) (erows : List EmissionRow)
    (hrid : run_id ≠ "")
    (hrun : st.runs.any (fun r => r.run_id == run_id) = true)
    (hcr : ∀ r ∈ crows, r.run_id = run_id)
    (hdr : ∀ r ∈ drows, r.run_id = run_id)
    (her : ∀ r ∈ erows, r.run_id = run_id)
    (hcd : crows.Pairwise (fun a b => countKey a ≠ countKey b))
    (hdd : drows.Pairwise (fun a b => densityKey a ≠ densityKey b))
    (hed : erows.Pairwise (fun a b => emissionKey a ≠ emissionKey b))
    (hcu : st.counts.Pairwise (fun a b => countKey a ≠ countKey b))
    (hdu : st.density.Pairwise (fun a b => densityKey a ≠ densityKey b))
    (heu : st.emissions.Pairwise (fun a b => emissionKey a ≠ emissionKey b)) :
    ((insert_vehicle_counts st crows run_id).bind
        (fun s => insert_vehicle_counts s crows run_id) =
      insert_vehicle_counts st crows run_id) ∧
    ((insert_density st drows run_id).bind (fun s => insert_density s drows run_id) =
      insert_density st drows run_id) ∧
    ((insert_emissions st erows run_id).bind (fun s => insert_emissions s erows run_id) =
      insert_emissions st erows run_id) ∧
    (∀ s, insert_vehicle_counts st crows run_id = .ok s → ∀ r ∈ crows,
      s.counts.countP (fun t => decide (countKey t = countKey r)) = 1) ∧
    (∀ s, insert_density st drows run_id = .ok s → ∀ r ∈ drows,
      s.density.countP (fun t => decide (densityKey t = densityKey r)) = 1) ∧
    (∀ s, insert_emissions st erows run_id = .ok s → ∀ r ∈ erows,
      s.emissions.countP (fun t => decide (emissionKey t = emissionKey r)) = 1) := by
  have crefl := keyEq_refl_of_iff countRowKeyEq countKey countRowKeyEq_iff
  have csymm := keyEq_symm_of_iff countRowKeyEq countKey countRowKeyEq_iff
  have ctrans := keyEq_trans_of_iff countRowKeyEq countKey countRowKeyEq_iff
  have drefl := keyEq_refl_of_iff densityRowKeyEq densityKey densityRowKeyEq_iff
  have dsymm := keyEq_symm_of_iff densityRowKeyEq densityKey densityRowKeyEq_iff
  have dtrans := keyEq_trans_of_iff densityRowKeyEq densityKey densityRowKeyEq_iff
  have erefl := keyEq_refl_of_iff emissionRowKeyEq emissionKey emissionRowKeyEq_iff
  have esymm := keyEq_symm_of_iff emissionRowKeyEq emissionKey emissionRowKeyEq_iff
  have etrans := keyEq_trans_of_iff emissionRowKeyEq emissionKey emissionRowKeyEq_iff
  have cKey : ∀ s t r : CountRow, countRowKeyEq s (countRowUpd t r) = countRowKeyEq s t :=
    fun _ _ _ => rfl
  have dKey : ∀ s t r : DensityRow, densityRowKeyEq s (densityRowUpd t r) = densityRowKeyEq s t :=
    fun _ _ _ => rfl
  have eKey : ∀ s t r : EmissionRow, emissionRowKeyEq s (emissionRowUpd t r) = emissionRowKeyEq s t :=
    fun _ _ _ => rfl
  have cIdem : ∀ t r : CountRow, countRowUpd (countRowUpd t r) r = countRowUpd t r :=
    fun _ _ => rfl
  have dIdem : ∀ t r : DensityRow, densityRowUpd (densityRowUpd t r) r = densityRowUpd t r :=
    fun _ _ => rfl
  have eIdem : ∀ t r : EmissionRow, emissionRowUpd (emissionRowUpd t r) r = emissionRowUpd t r :=
    fun _ _ => rfl
  have cSelf : ∀ r : CountRow, countRowUpd r r = r := fun _ => rfl
  have dSelf : ∀ r : DensityRow, densityRowUpd r r = r := fun _ => rfl
  have eSelf : ∀ r : EmissionRow, emissionRowUpd r r = r := fun _ => rfl
  have hcd' := pairwise_keyEq_false countRowKeyEq countKey countRowKeyEq_iff crows hcd
  have hdd' := pairwise_keyEq_false densityRowKeyEq densityKey densityRowKeyEq_iff drows hdd
  have hed' := pairwise_keyEq_false emissionRowKeyEq emissionKey emissionRowKeyEq_iff erows hed
  have hcu' := pairwise_keyEq_false countRowKeyEq countKey countRowKeyEq_iff st.counts hcu
  have hdu' := pairwise_keyEq_false densityRowKeyEq densityKey densityRowKeyEq_iff st.density hdu
  have heu' := pairwise_keyEq_false emissionRowKeyEq emissionKey emissionRowKeyEq_iff st.emissions heu
  refine ⟨?_, ?_, ?_, ?_, ?_, ?_⟩
  · rw [insert_vehicle_counts_eq st crows run_id hrid hrun hcr, Except.bind,
      insert_vehicle_counts_eq
        { st with counts := crows.foldl (upsertRow countRowKeyEq countRowUpd) st.counts }
        crows run_id hrid hrun hcr]
    have hidem := foldl_upsert_idem countRowKeyEq countRowUpd crefl csymm ctrans cKey cIdem cSelf
      crows hcd' st.counts
    simp [hidem]
  · rw [insert_density_eq st drows run_id hrid hrun hdr, Except.bind,
      insert_density_eq
        { st with density := drows.foldl (upsertRow densityRowKeyEq densityRowUpd) st.density }
        drows run_id hrid hrun hdr]
    have hidem := foldl_upsert_idem densityRowKeyEq densityRowUpd drefl dsymm dtrans dKey dIdem dSelf
      drows hdd' st.density
    simp [hidem]
  · rw [insert_emissions_eq st erows run_id hrid hrun her, Except.bind,
      insert_emissions_eq
        { st with emissions := erows.foldl (upsertRow emissionRowKeyEq emissionRowUpd) st.emissions }
        erows run_id hrid hrun her]
    have hidem := foldl_upsert_idem emissionRowKeyEq emissionRowUpd erefl esymm etrans eKey eIdem eSelf
      erows hed' st.emissions
    simp [hidem]
  · intro s hs r hr
    rw [insert_vehicle_counts_eq st crows run_id hrid hrun hcr] at hs
    injection hs with hs
    subst hs
    have h1 := foldl_upsert_countP_one countRowKeyEq countRowUpd crefl csymm ctrans cKey
      crows hcd' st.counts hcu' r hr
    calc ((crows.foldl (upsertRow countRowKeyEq countRowUpd) st.counts).countP
            (fun t => decide (countKey t = countKey r)))
        = ((crows.foldl (upsertRow countRowKeyEq countRowUpd) st.counts).countP
            (fun t => countRowKeyEq r t)) := by
          apply List.countP_congr
          intro t _
          by_cases h : countKey r = countKey t
          · rw [decide_eq_true h.symm, (countRowKeyEq_iff r t).mpr h]
          · rw [decide_eq_false (fun hc : countKey t = countKey r => h hc.symm),
              Bool.eq_false_iff.mpr (fun hc => h ((countRowKeyEq_iff r t).mp hc))]
      _ = 1 := h1
  · intro s hs r hr
    rw [insert_density_eq st drows run_id hrid hrun hdr] at hs
    injection hs with hs
    subst hs
    have h1 := foldl_upsert_countP_one densityRowKeyEq densityRowUpd drefl dsymm dtrans dKey
      drows hdd' st.density hdu' r hr
    calc ((drows.foldl (upsertRow densityRowKeyEq densityRowUpd) st.density).countP
            (fun t => decide (densityKey t = densityKey r)))
        = ((drows.foldl (upsertRow densityRowKeyEq densityRowUpd) st.density).countP
            (fun t => densityRowKeyEq r t)) := by
          apply List.countP_congr
          intro t _
          by_cases h : densityKey r = densityKey t
          · rw [decide_eq_true h.symm, (densityRowKeyEq_iff r t).mpr h]
          · rw [decide_eq_false (fun hc : densityKey t = densityKey r => h hc.symm),
              Bool.eq_false_iff.mpr (fun hc => h ((densityRowKeyEq_iff r t).mp hc))]
      _ = 1 := h1
  · intro s hs r hr
    rw [insert_emissions_eq st erows run_id hrid hrun her] at hs
    injection hs with hs
    subst hs
    have h1 := foldl_upsert_countP_one emissionRowKeyEq emissionRowUpd erefl esymm etrans eKey
      erows hed' st.emissions heu' r hr
    calc ((erows.foldl (upsertRow emissionRowKeyEq emissionRowUpd) st.emissions).countP
            (fun t => decide (emissionKey t = emissionKey r)))
        = ((erows.foldl (upsertRow emissionRowKeyEq emissionRowUpd) st.emissions).countP
            (fun t => emissionRowKeyEq r t)) := by
          apply List.countP_congr
          intro t _
          by_cases h : emissionKey r = emissionKey t
          · rw [decide_eq_true h.symm, (emissionRowKeyEq_iff r t).mpr h]
          · rw [decide_eq_false (fun hc : emissionKey t = emissionKey r => h hc.symm),
              Bool.eq_false_iff.mpr (fun hc => h ((emissionRowKeyEq_iff r t).mp hc))]
      _ = 1 := h1

/-- Witness for C5: a concrete re-commit of one bucket's rows through
all three repositories is a no-op the second time. -/
theorem C5_upsert_witness :
    ((insert_vehicle_counts resumeScenarioState c5CountRows "run-0").bind
        (fun s => insert_vehicle_counts s c5CountRows "run-0") =
      insert_vehicle_counts resumeScenarioState c5CountRows "run-0") ∧
    ((insert_density resumeScenarioState [c5DensityRow] "run-0").bind
        (fun s => insert_density s [c5DensityRow] "run-0") =
      insert_density resumeScenarioState [c5DensityRow] "run-0") ∧
    ((insert_emissions resumeScenarioState [c5EmissionRow] "run-0").bind
        (fun s => insert_emissions s [c5EmissionRow] "run-0") =
      insert_emissions resumeScenarioState [c5EmissionRow] "run-0") := by
  have h := C5_upsert_idempotent resumeScenarioState "run-0" c5CountRows [c5DensityRow]
    [c5EmissionRow] (by decide) (by decide)
    (by decide) (by decide) (by decide)
    (by decide) (by decide) (by decide)
    (by decide) (by decide) (by decide)
  exact ⟨h.1, h.2.1, h.2.2.1⟩

/-! ## C4 — atomic bucket transactions and checkpoint consistency -/

theorem any_false_of_forall {α : Type} (p : α → Bool) (l : List α)
    (h : ∀ x ∈ l, p x = false) : l.any p = false := by
  induction l with
  | nil => rfl
  | cons a t ih =>
    simp only [List.any_cons, h a (List.mem_cons_self a t), Bool.false_or]
    exact ih (fun x hx => h x (List.mem_cons_of_mem a hx))

theorem forall_of_any_false {α : Type} (p : α → Bool) (l : List α)
    (h : l.any p = false) : ∀ x ∈ l, p x = false := by
  induction l with
  | nil => intro x hx; exact absurd hx (List.not_mem_nil x)
  | cons a t ih =>
    simp only [List.any_cons, Bool.or_eq_false_iff] at h
    intro x hx
    rcases List.mem_cons.mp hx with rfl | hx
    · exact h.1
    · exact ih h.2 x hx

theorem find?_skip {α : Type} (p : α → Bool) (l1 l2 : List α)
    (h : ∀ x ∈ l1, p x = false) : (l1 ++ l2).find? p = l2.find? p := by
  induction l1 with
  | nil => rfl
  | cons a t ih =>
    rw [List.cons_append, List.find?_cons, h a (List.mem_cons_self a t)]
    exact ih (fun x hx => h x (List.mem_cons_of_mem a hx))

/-- Upserting rows none of whose keys are present appends them. -/
theorem foldl_upsert_append {α : Type} (keyEq : α → α → Bool) (upd : α → α → α)
    (rows : List α) :
    ∀ T : List α, (∀ r ∈ rows, T.any (fun t => keyEq r t) = false) →
      rows.Pairwise (fun a b => keyEq b a = false) →
      rows.foldl (upsertRow keyEq upd) T = T ++ rows := by
  induction rows with
  | nil => intro T _ _; simp
  | cons r rest ih =>
    intro T hnone hpw
    rcases List.pairwise_cons.mp hpw with ⟨hhead, htail⟩
    simp only [List.foldl_cons]
    have hstep : upsertRow keyEq upd T r = T ++ [r] := by
      rw [upsertRow, if_neg]
      simp [hnone r (List.mem_cons_self r rest)]
    rw [hstep, ih (T ++ [r]) ?_ htail, List.append_assoc]
    · rfl
    · intro x hx
      apply any_false_of_forall
      intro t ht
      rcases List.mem_append.mp ht with hT | hr
      · exact forall_of_any_false _ T (hnone x (List.mem_cons_of_mem r hx)) t hT
      · rcases List.mem_singleton.mp hr with rfl
        exact hhead x hx

theorem except_bind_ok {β γ : Type} (x : β) (f : β → Except String γ) :
    (Except.ok x : Except String β).bind f = f x := rfl

theorem upsert_checkpoint_eq (st : DBState) (run_id : String) (ts idx : ℤ) (now : String)
    (hrid : run_id ≠ "")
    (hrun : st.runs.any (fun r => r.run_id == run_id) = true) :
    upsert_checkpoint st run_id ts idx now =
      .ok { st with checkpoints := (upsertRow checkpointKeyEq checkpointUpd st.checkpoints
        { run_id := run_id, last_bucket_ts := ts, bucket_index := idx, updated_at := now }) } := by
  simp only [upsert_checkpoint, ensure_run_exists, hrid, hrun]
  simp [hrid, hrun]

theorem checkpoint_upsert_shape (st0 : DBState) (run_id now : String) (ps : List BucketPayload)
    (p : BucketPayload) (hnrr : ∀ c ∈ st0.checkpoints, c.run_id ≠ run_id) :
    upsertRow checkpointKeyEq checkpointUpd
      (st0.checkpoints ++ (match ps.getLast? with
        | none => []
        | some q => [{ run_id := run_id, last_bucket_ts := q.bucket_ts,
                       bucket_index := q.bucket_index, updated_at := now : CheckpointRow }]))
      { run_id := run_id, last_bucket_ts := p.bucket_ts, bucket_index := p.bucket_index,
        updated_at := now }
      = st0.checkpoints ++
        [{ run_id := run_id, last_bucket_ts := p.bucket_ts, bucket_index := p.bucket_index,
           updated_at := now }] := by
  have hskip : ∀ c ∈ st0.checkpoints,
      checkpointKeyEq
        { run_id := run_id, last_bucket_ts := p.bucket_ts, bucket_index := p.bucket_index,
          updated_at := now } c = false := by
    intro c hc
    simp [checkpointKeyEq]
    exact (hnrr c hc).symm
  cases hlast : ps.getLast? with
  | none =>
    rw [upsertRow, if_neg]
    · simp
    · rw [List.append_nil]
      simp only [Bool.not_eq_true]
      exact any_false_of_forall _ _ hskip
  | some q =>
    rw [upsertRow, if_pos]
    · rw [List.map_append]
      congr 1
      · apply List.map_congr_left ?_ |>.trans (List.map_id _)
        intro c hc
        rw [if_neg (by simp [hskip c hc])]
        rfl
      · simp [checkpointKeyEq, checkpointUpd]
    · apply List.any_eq_true.mpr
      refine ⟨_, List.mem_append_right _ (List.mem_singleton_self _), ?_⟩
      simp [checkpointKeyEq]

theorem commitBucketTx_committed (st0 : DBState) (run_id now : String)
    (ps : List BucketPayload) (p : BucketPayload) (emit_fail : ℤ → Bool)
    (hrid : run_id ≠ "")
    (hrun : st0.runs.any (fun r => r.run_id == run_id) = true)
    (hnrr : noRunRows st0 run_id)
    (hwf : payloadWF run_id p)
    (hpswf : ∀ q ∈ ps, payloadWF run_id q)
    (hts : ∀ q ∈ ps, q.bucket_ts ≠ p.bucket_ts)
    (hfail : emit_fail p.bucket_index = false) :
    commitBucketTx (committedState st0 run_id now ps) run_id p emit_fail now =
      .ok (committedState st0 run_id now (ps ++ [p])) := by
  obtain ⟨hcr, hcvt, hdri, hdts, heri, hets⟩ := hwf
  set S := committedState st0 run_id now ps with hS
  have hSruns : S.runs = st0.runs := rfl
  have hSc : S.counts = st0.counts ++ ps.flatMap BucketPayload.counts_rows := rfl
  have hSd : S.density = st0.density ++ ps.map BucketPayload.density_row := rfl
  have hSe : S.emissions = st0.emissions ++ ps.map BucketPayload.emission_row := rfl
  have hrunS : S.runs.any (fun r => r.run_id == run_id) = true := by rw [hSruns]; exact hrun
  -- the three row inserts are pure appends
  have hcapp : p.counts_rows.foldl (upsertRow countRowKeyEq countRowUpd) S.counts
      = S.counts ++ p.counts_rows := by
    apply foldl_upsert_append
    · intro r hr
      apply any_false_of_forall
      intro t ht
      rw [hSc] at ht
      rcases List.mem_append.mp ht with h0 | hp0
      · have hb : (r.run_id == t.run_id) = false := by
          rw [beq_eq_false_iff_ne, (hcr r hr).1]
          exact fun hc => (hnrr.1 t h0) hc.symm
        simp [countRowKeyEq, hb]
      · rcases List.mem_flatMap.mp hp0 with ⟨q, hq, htq⟩
        have hb : (r.bucket_ts == t.bucket_ts) = false := by
          rw [beq_eq_false_iff_ne, (hcr r hr).2, ((hpswf q hq).1 t htq).2]
          exact fun hc => (hts q hq) hc.symm
        simp [countRowKeyEq, hb]
    · refine hcvt.imp ?_
      intro a b hab
      have hb : (b.vehicle_type == a.vehicle_type) = false := by
        rw [beq_eq_false_iff_ne]
        exact fun hc => hab hc.symm
      simp [countRowKeyEq, hb]
  have hdapp : [p.density_row].foldl (upsertRow densityRowKeyEq densityRowUpd) S.density
      = S.density ++ [p.density_row] := by
    apply foldl_upsert_append
    · intro r hr
      rcases List.mem_singleton.mp hr with rfl
      apply any_false_of_forall
      intro t ht
      rw [hSd] at ht
      rcases List.mem_append.mp ht with h0 | hp0
      · have hb : (p.density_row.run_id == t.run_id) = false := by
          rw [beq_eq_false_iff_ne, hdri]
          exact fun hc => (hnrr.2.1 t h0) hc.symm
        simp [densityRowKeyEq, hb]
      · rcases List.mem_map.mp hp0 with ⟨q, hq, rfl⟩
        have hb : (p.density_row.bucket_ts == q.density_row.bucket_ts) = false := by
          rw [beq_eq_false_iff_ne, hdts, (hpswf q hq).2.2.2.1]
          exact fun hc => (hts q hq) hc.symm
        simp [densityRowKeyEq, hb]
    · exact List.pairwise_singleton _ _
  have heapp : [p.emission_row].foldl (upsertRow emissionRowKeyEq emissionRowUpd) S.emissions
      = S.emissions ++ [p.emission_row] := by
    apply foldl_upsert_append
    · intro r hr
      rcases List.mem_singleton.mp hr with rfl
      apply any_false_of_forall
      intro t ht
      rw [hSe] at ht
      rcases List.mem_append.mp ht with h0 | hp0
      · have hb : (p.emission_row.run_id == t.run_id) = false := by
          rw [beq_eq_false_iff_ne, heri]
          exact fun hc => (hnrr.2.2.1 t h0) hc.symm
        simp [emissionRowKeyEq, hb]
      · rcases List.mem_map.mp hp0 with ⟨q, hq, rfl⟩
        have hb : (p.emission_row.bucket_ts == q.emission_row.bucket_ts) = false := by
          rw [beq_eq_false_iff_ne, hets, (hpswf q hq).2.2.2.2.2]
          exact fun hc => (hts q hq) hc.symm
        simp [emissionRowKeyEq, hb]
    · exact List.pairwise_singleton _ _
  have e1 : insert_vehicle_counts S p.counts_rows run_id =
      .ok { S with counts := S.counts ++ p.counts_rows } := by
    rw [insert_vehicle_counts_eq S p.counts_rows run_id hrid hrunS (fun r h => (hcr r h).1), hcapp]
  have e2 : insert_density { S with counts := S.counts ++ p.counts_rows }
      [p.density_row] run_id =
      .ok { S with counts := S.counts ++ p.counts_rows,
                   density := S.density ++ [p.density_row] } := by
    rw [insert_density_eq { S with counts := S.counts ++ p.counts_rows } [p.density_row]
      run_id hrid hrunS
      (fun r h => by rcases List.mem_singleton.mp h with rfl; exact hdri)]
    rw [show ([p.density_row].foldl (upsertRow densityRowKeyEq densityRowUpd)
        ({ S with counts := S.counts ++ p.counts_rows } : DBState).density)
      = S.density ++ [p.density_row] from hdapp]
  have e3 : insert_emissions
      { S with counts := S.counts ++ p.counts_rows, density := S.density ++ [p.density_row] }
      [p.emission_row] run_id =
      .ok { S with counts := S.counts ++ p.counts_rows,
                   density := S.density ++ [p.density_row],
                   emissions := S.emissions ++ [p.emission_row] } := by
    rw [insert_emissions_eq
      { S with counts := S.counts ++ p.counts_rows, density := S.density ++ [p.density_row] }
      [p.emission_row] run_id hrid hrunS
      (fun r h => by rcases List.mem_singleton.mp h with rfl; exact heri)]
    rw [show ([p.emission_row].foldl (upsertRow emissionRowKeyEq emissionRowUpd)
        ({ S with counts := S.counts ++ p.counts_rows,
                  density := S.density ++ [p.density_row] } : DBState).emissions)
      = S.emissions ++ [p.emission_row] from heapp]
  have e4 : upsert_checkpoint
      { S with counts := S.counts ++ p.counts_rows, density := S.density ++ [p.density_row],
               emissions := S.emissions ++ [p.emission_row] }
      run_id p.bucket_ts p.bucket_index now =
      .ok (committedState st0 run_id now (ps ++ [p])) := by
    rw [upsert_checkpoint_eq
      { S with counts := S.counts ++ p.counts_rows, density := S.density ++ [p.density_row],
               emissions := S.emissions ++ [p.emission_row] }
      run_id p.bucket_ts p.bucket_index now hrid hrunS]
    have hshape := checkpoint_upsert_shape st0 run_id now ps p hnrr.2.2.2
    simp only [committedState] at hS ⊢
    rw [hS]
    simp only [List.getLast?_concat]
    congr 1
    simp [hshape, List.flatMap_append, List.map_append, List.append_assoc]
  simp only [commitBucketTx, e1, e2,
    if_neg (show ¬ emit_fail p.bucket_index = true by simp [hfail]), e3, e4]

theorem commitBucketTx_fail (st0 : DBState) (run_id now : String)
    (ps : List BucketPayload) (p : BucketPayload) (emit_fail : ℤ → Bool)
    (hrid : run_id ≠ "")
    (hrun : st0.runs.any (fun r => r.run_id == run_id) = true)
    (hwf : payloadWF run_id p)
    (hfail : emit_fail p.bucket_index = true) :
    commitBucketTx (committedState st0 run_id now ps) run_id p emit_fail now =
      .error "forced failure" := by
  obtain ⟨hcr, _, hdri, _, _, _⟩ := hwf
  have hrunS : (committedState st0 run_id now ps).runs.any
      (fun r => r.run_id == run_id) = true := hrun
  have e1 := insert_vehicle_counts_eq (committedState st0 run_id now ps) p.counts_rows run_id
    hrid hrunS (fun r h => (hcr r h).1)
  have e2 := insert_density_eq
    { committedState st0 run_id now ps with
      counts := p.counts_rows.foldl (upsertRow countRowKeyEq countRowUpd)
        (committedState st0 run_id now ps).counts }
    [p.density_row] run_id hrid hrunS
    (fun r h => by rcases List.mem_singleton.mp h with rfl; exact hdri)
  simp only [commitBucketTx, e1, e2, hfail, if_pos]

theorem committedState_nil (st0 : DBState) (run_id now : String) :
    committedState st0 run_id now [] = st0 := by
  simp [committedState]

theorem commitLoop_inv (st0 : DBState) (run_id now : String) (emit_fail : ℤ → Bool)
    (hrid : run_id ≠ "")
    (hrun : st0.runs.any (fun r => r.run_id == run_id) = true)
    (hnrr : noRunRows st0 run_id) :
    ∀ (payloads ps0 : List BucketPayload),
      (∀ p ∈ ps0 ++ payloads, payloadWF run_id p) →
      (ps0 ++ payloads).Pairwise (fun a b => a.bucket_ts ≠ b.bucket_ts) →
      ∃ k, k ≤ payloads.length ∧
        (commitLoop run_id emit_fail now (committedState st0 run_id now ps0) payloads).2 =
          committedState st0 run_id now (ps0 ++ payloads.take k) ∧
        ((commitLoop run_id emit_fail now (committedState st0 run_id now ps0) payloads).1 =
            .ok () → k = payloads.length) := by
  intro payloads
  induction payloads with
  | nil =>
    intro ps0 _ _
    exact ⟨0, Nat.le_refl 0, by simp [commitLoop], fun _ => rfl⟩
  | cons p rest ih =>
    intro ps0 hwf hpw
    have hwf_p : payloadWF run_id p :=
      hwf p (List.mem_append_right _ (List.mem_cons_self p rest))
    by_cases hfail : emit_fail p.bucket_index = true
    · have hfl := commitBucketTx_fail st0 run_id now ps0 p emit_fail hrid hrun hwf_p hfail
      refine ⟨0, Nat.zero_le _, ?_, ?_⟩
      · simp only [commitLoop, hfl]
        simp
      · simp only [commitLoop, hfl]
        intro hc
        exact absurd hc (by simp)
    · rw [Bool.not_eq_true] at hfail
      have hts_p : ∀ q ∈ ps0, q.bucket_ts ≠ p.bucket_ts := by
        intro q hq
        have := (List.pairwise_append.mp hpw).2.2 q hq p (List.mem_cons_self p rest)
        exact this
      have hcommit := commitBucketTx_committed st0 run_id now ps0 p emit_fail hrid hrun hnrr
        hwf_p (fun q hq => hwf q (List.mem_append_left _ hq)) hts_p hfail
      have hwf' : ∀ q ∈ (ps0 ++ [p]) ++ rest, payloadWF run_id q := by
        intro q hq
        apply hwf
        rw [List.append_assoc] at hq
        simpa using hq
      have hpw' : ((ps0 ++ [p]) ++ rest).Pairwise (fun a b => a.bucket_ts ≠ b.bucket_ts) := by
        rw [List.append_assoc]
        simpa using hpw
      rcases ih (ps0 ++ [p]) hwf' hpw' with ⟨k, hk, hstate, hok⟩
      refine ⟨k + 1, Nat.succ_le_succ hk, ?_, ?_⟩
      · simp only [commitLoop, hcommit]
        rw [hstate, List.take_succ_cons, List.append_assoc]
        rfl
      · simp only [commitLoop, hcommit]
        intro h
        have := hok h
        simp [this]

theorem committedState_checkpoint_index (st0 : DBState) (run_id now : String)
    (ps : List BucketPayload)
    (hnrr : ∀ c ∈ st0.checkpoints, c.run_id ≠ run_id) :
    (((committedState st0 run_id now ps).checkpoints.find?
        (fun c => c.run_id == run_id)).map CheckpointRow.bucket_index) =
      (ps.getLast?).map BucketPayload.bucket_index := by
  have hshape : (committedState st0 run_id now ps).checkpoints =
      st0.checkpoints ++ (match ps.getLast? with
        | none => []
        | some q => [{ run_id := run_id, last_bucket_ts := q.bucket_ts,
                       bucket_index := q.bucket_index, updated_at := now : CheckpointRow }]) := rfl
  rw [hshape, find?_skip _ _ _ (fun c hc => by
    rw [beq_eq_false_iff_ne]
    exact hnrr c hc)]
  cases ps.getLast? with
  | none => rfl
  | some q => simp

theorem committedState_density_ts (st0 : DBState) (run_id now : String)
    (ps : List BucketPayload)
    (hnrr : ∀ r ∈ st0.density, r.run_id ≠ run_id)
    (hwf : ∀ p ∈ ps, payloadWF run_id p) :
    (((committedState st0 run_id now ps).density.filter
        (fun r => r.run_id == run_id)).map DensityRow.bucket_ts) =
      ps.map BucketPayload.bucket_ts := by
  have hshape : (committedState st0 run_id now ps).density =
      st0.density ++ ps.map BucketPayload.density_row := rfl
  rw [hshape, List.filter_append]
  have h0 : st0.density.filter (fun r => r.run_id == run_id) = [] := by
    apply List.filter_eq_nil_iff.mpr
    intro r hr
    simp [hnrr r hr]
  have h1 : (ps.map BucketPayload.density_row).filter (fun r => r.run_id == run_id) =
      ps.map BucketPayload.density_row := by
    apply List.filter_eq_self.mpr
    intro r hr
    rcases List.mem_map.mp hr with ⟨q, hq, rfl⟩
    simp [(hwf q hq).2.2.1]
  rw [h0, h1, List.nil_append, List.map_map]
  apply List.map_congr_left
  intro q hq
  exact (hwf q hq).2.2.2.1

theorem committedState_emission_ts (st0 : DBState) (run_id now : String)
    (ps : List BucketPayload)
    (hnrr : ∀ r ∈ st0.emissions, r.run_id ≠ run_id)
    (hwf : ∀ p ∈ ps, payloadWF run_id p) :
    (((committedState st0 run_id now ps).emissions.filter
        (fun r => r.run_id == run_id)).map EmissionRow.bucket_ts) =
      ps.map BucketPayload.bucket_ts := by
  have hshape : (committedState st0 run_id now ps).emissions =
      st0.emissions ++ ps.map BucketPayload.emission_row := rfl
  rw [hshape, List.filter_append]
  have h0 : st0.emissions.filter (fun r => r.run_id == run_id) = [] := by
    apply List.filter_eq_nil_iff.mpr
    intro r hr
    simp [hnrr r hr]
  have h1 : (ps.map BucketPayload.emission_row).filter (fun r => r.run_id == run_id) =
      ps.map BucketPayload.emission_row := by
    apply List.filter_eq_self.mpr
    intro r hr
    rcases List.mem_map.mp hr with ⟨q, hq, rfl⟩
    simp [(hwf q hq).2.2.2.2.1]
  rw [h0, h1, List.nil_append, List.map_map]
  apply List.map_congr_left
  intro q hq
  exact (hwf q hq).2.2.2.2.2

/-- C4: the bucket-persistence loop commits each payload's three row
sets and checkpoint advance atomically: some prefix of `k` payloads is
fully committed, a success consumed all of them, a failed transaction
leaves no trace of its bucket, and the stored checkpoint always equals
the last committed bucket index while the density/emission rows visible
for the run are exactly those of the committed prefix. -/
theorem C4_commit_atomic_consistent (st : DBState) (run_id now : String)
    (payloads : List BucketPayload) (emit_fail : ℤ → Bool)
    (hrid : run_id ≠ "")
    (hrun : st.runs.any (fun r => r.run_id == run_id) = true)
    (hnrr : noRunRows st run_id)
    (hwf : ∀ p ∈ payloads, payloadWF run_id p)
    (hts : payloads.Pairwise (fun a b => a.bucket_ts ≠ b.bucket_ts)) :
    ∃ k, k ≤ payloads.length ∧
      (commitLoop run_id emit_fail now st payloads).2 =
        committedState st run_id now (payloads.take k) ∧
      ((commitLoop run_id emit_fail now st payloads).1 = .ok () → k = payloads.length) ∧
      (((commitLoop run_id emit_fail now st payloads).2.checkpoints.find?
          (fun c => c.run_id == run_id)).map CheckpointRow.bucket_index =
        ((payloads.take k).getLast?).map BucketPayload.bucket_index) ∧
      (((commitLoop run_id emit_fail now st payloads).2.density.filter
          (fun r => r.run_id == run_id)).map DensityRow.bucket_ts =
        (payloads.take k).map BucketPayload.bucket_ts) ∧
      (((commitLoop run_id emit_fail now st payloads).2.emissions.filter
          (fun r => r.run_id == run_id)).map EmissionRow.bucket_ts =
        (payloads.take k).map BucketPayload.bucket_ts) := by
  have hinv := commitLoop_inv st run_id now emit_fail hrid hrun hnrr payloads []
    (by simpa using hwf) (by simpa using hts)
  rw [committedState_nil] at hinv
  rcases hinv with ⟨k, hk, hstate, hok⟩
  have hwf_take : ∀ p ∈ payloads.take k, payloadWF run_id p :=
    fun p hp => hwf p (List.mem_of_mem_take hp)
  refine ⟨k, hk, by simpa using hstate, hok, ?_, ?_, ?_⟩
  · rw [hstate]
    simpa using committedState_checkpoint_index st run_id now (payloads.take k) hnrr.2.2.2
  · rw [hstate]
    simpa using committedState_density_ts st run_id now (payloads.take k) hnrr.2.1 hwf_take
  · rw [hstate]
    simpa using committedState_emission_ts st run_id now (payloads.take k) hnrr.2.2.1 hwf_take

/-- Witness for C4: one bucket committed against a fresh run. -/
theorem C4_commit_witness :
    ∃ k, k ≤ [c4Payload].length ∧
      (commitLoop "run-0" (fun _ => false) "T1" c4State [c4Payload]).2 =
        committedState c4State "run-0" "T1" ([c4Payload].take k) ∧
      ((commitLoop "run-0" (fun _ => false) "T1" c4State [c4Payload]).1 = .ok () →
        k = [c4Payload].length) ∧
      (((commitLoop "run-0" (fun _ => false) "T1" c4State [c4Payload]).2.checkpoints.find?
          (fun c => c.run_id == "run-0")).map CheckpointRow.bucket_index =
        (([c4Payload].take k).getLast?).map BucketPayload.bucket_index) ∧
      (((commitLoop "run-0" (fun _ => false) "T1" c4State [c4Payload]).2.density.filter
          (fun r => r.run_id == "run-0")).map DensityRow.bucket_ts =
        ([c4Payload].take k).map BucketPayload.bucket_ts) ∧
      (((commitLoop "run-0" (fun _ => false) "T1" c4State [c4Payload]).2.emissions.filter
          (fun r => r.run_id == "run-0")).map EmissionRow.bucket_ts =
        ([c4Payload].take k).map BucketPayload.bucket_ts) :=
  C4_commit_atomic_consistent c4State "run-0" "T1" [c4Payload] (fun _ => false)
    (by decide) (by decide) (by simp [noRunRows, c4State])
    (by simp [payloadWF, c4Payload]) (by simp)

/-! ## C2: resume skips already-committed frames before the detector -/

/-- `upsert_camera` touches only the `cameras` table. -/
theorem upsert_camera_runs (st : DBState) (cid : String) (l : Option String)
    (la lo : Option ℚ) (n : Option String) :
    (upsert_camera st cid l la lo n).runs = st.runs := by
  unfold upsert_camera; split <;> rfl

theorem upsert_camera_checkpoints (st : DBState) (cid : String) (l : Option String)
    (la lo : Option ℚ) (n : Option String) :
    (upsert_camera st cid l la lo n).checkpoints = st.checkpoints := by
  unfold upsert_camera; split <;> rfl

/-- On a state whose only run is a matching `failed`/`stopped` row,
`resolveRun` reactivates that row. -/
theorem resolveRun_resume (st : DBState)
    (camera_id source_video config_hash new_run_id started_at : String) (r : RunRow)
    (hruns : st.runs = [r])
    (hst : r.status = "failed" ∨ r.status = "stopped")
    (hcam : r.camera_id = camera_id)
    (hsrc : r.source_video = source_video)
    (hhash : r.config_hash = config_hash) :
    resolveRun st camera_id source_video config_hash new_run_id started_at
      = .ok (.active r.run_id,
        { st with runs := [{ r with status := "running", error_message := none, ended_at := none }] }) := by
  have hcomp : st.runs.filter (fun x => x.camera_id == camera_id &&
      x.source_video == source_video && x.config_hash == config_hash &&
      x.status == "completed") = [] := by
    rw [hruns]
    rcases hst with h | h <;> simp [h]
  have hres : st.runs.filter (fun x => x.camera_id == camera_id &&
      x.source_video == source_video && x.config_hash == config_hash &&
      (x.status == "failed" || x.status == "stopped")) = [r] := by
    rw [hruns]
    rcases hst with h | h <;> simp [h, hcam, hsrc, hhash]
  have hlatest : latestRunBy [r] = some r := rfl
  unfold resolveRun
  rw [hcomp, hres]
  simp [hlatest, hruns]

/-- `get_checkpoint` on a state containing the run and its checkpoint row. -/
theorem get_checkpoint_found (st : DBState) (run_id : String) (c : CheckpointRow)
    (hrid : run_id ≠ "")
    (hexists : st.runs.any (fun r => r.run_id == run_id) = true)
    (hfind : st.checkpoints.find? (fun x => x.run_id == run_id) = some c) :
    get_checkpoint st run_id = .ok (some c) := by
  unfold get_checkpoint ensure_run_exists
  simp [hrid, hexists, hfind]

/-- With a resume boundary `R`, every detector invocation recorded by the
frame loop is at a timestamp `≥ R` (given the incoming trace already is). -/
theorem frameLoop_calls_ge (cm : List (String × String)) (R : ℚ)
    (frames : List FrameInput) :
    ∀ s : LoopState, (∀ t ∈ s.detector_calls, R ≤ t) →
      ∀ t ∈ (frameLoop cm (some R) s frames).1.detector_calls, R ≤ t := by
  induction frames with
  | nil => intro s h; simpa [frameLoop] using h
  | cons f rest ih =>
    intro s h
    rw [frameLoop]
    by_cases hlt : f.ts < R
    · rw [if_pos (by simp [hlt])]
      exact ih s h
    · have hle : R ≤ f.ts := not_lt.mp hlt
      have h' : ∀ t ∈ s.detector_calls ++ [f.ts], R ≤ t := by
        intro t ht
        rcases List.mem_append.mp ht with h1 | h2
        · exact h t h1
        · rw [List.mem_singleton.mp h2]; exact hle
      rw [if_neg (by simp [hlt])]
      cases f.outcome with
      | stop => exact h'
      | err m => exact h'
      | dets l => exact ih _ h'

/-- When no frame stops or raises, the detector-call trace is exactly the
timestamps at or past the boundary, in order. -/
theorem frameLoop_calls_eq (cm : List (String × String)) (R : ℚ)
    (frames : List FrameInput) :
    ∀ s : LoopState, (∀ f ∈ frames, ∃ l, f.outcome = DetectOutcome.dets l) →
      (frameLoop cm (some R) s frames).1.detector_calls
        = s.detector_calls
          ++ (frames.filter (fun f => decide (R ≤ f.ts))).map FrameInput.ts := by
  induction frames with
  | nil => intro s _; simp [frameLoop]
  | cons f rest ih =>
    intro s hall
    obtain ⟨l, hl⟩ := hall f (List.mem_cons_self f rest)
    rw [frameLoop]
    by_cases hlt : f.ts < R
    · have hfil : decide (R ≤ f.ts) = false := decide_eq_false (not_le.mpr hlt)
      rw [if_pos (by simp [hlt])]
      rw [ih s (fun g hg => hall g (List.mem_cons_of_mem _ hg))]
      simp [List.filter_cons, hfil]
    · have hfil : decide (R ≤ f.ts) = true := decide_eq_true (not_lt.mp hlt)
      rw [if_neg (by simp [hlt])]
      simp only [hl]
      rw [ih _ (fun g hg => hall g (List.mem_cons_of_mem _ hg))]
      simp [List.filter_cons, hfil, List.append_assoc]

/-- C2: starting `run_pipeline` against a state whose single run is a
matching resumable (`failed`/`stopped`) run with a checkpoint at bucket
index `c.bucket_index`, the detector is never invoked on a frame with
timestamp below `(c.bucket_index + 1) * bucket_seconds`; and when no frame
stops or errors the detector is invoked exactly on the frames at or past
that boundary, in order. -/
theorem C2_resume_skips_committed_frames
    (st : DBState) (video_path camera_id : String) (cfg : AppConfig)
    (source_video? : Option String) (loc : Option String) (lat lon : Option ℚ)
    (notes : Option String) (start_time : ℤ) (frames : List FrameInput)
    (new_run_id now_iso : String) (emit_fail : ℤ → Bool)
    (r : RunRow) (c : CheckpointRow)
    (hruns : st.runs = [r])
    (hst : r.status = "failed" ∨ r.status = "stopped")
    (hcam : r.camera_id = camera_id)
    (hsrc : r.source_video = source_video?.getD video_path)
    (hhash : r.config_hash = stableConfigHash cfg)
    (hrid : r.run_id ≠ "")
    (hchk : st.checkpoints = [c])
    (hcrid : c.run_id = r.run_id)
    (hbs : 0 < cfg.bucket_seconds) :
    (∀ t ∈ (runPipelineTrace st true video_path camera_id cfg source_video? loc lat lon
        notes start_time frames new_run_id now_iso emit_fail).2.2,
      (((c.bucket_index + 1) * cfg.bucket_seconds : ℤ) : ℚ) ≤ t) ∧
    ((∀ f ∈ frames, ∃ l, f.outcome = DetectOutcome.dets l) →
      (runPipelineTrace st true video_path camera_id cfg source_video? loc lat lon
        notes start_time frames new_run_id now_iso emit_fail).2.2
        = (frames.filter (fun f =>
            decide ((((c.bucket_index + 1) * cfg.bucket_seconds : ℤ) : ℚ) ≤ f.ts))).map
            FrameInput.ts) := by
  have hruns1 : (upsert_camera st camera_id loc lat lon notes).runs = [r] := by
    rw [upsert_camera_runs, hruns]
  have hresolve := resolveRun_resume (upsert_camera st camera_id loc lat lon notes)
    camera_id (source_video?.getD video_path) (stableConfigHash cfg) new_run_id now_iso r
    hruns1 hst hcam hsrc hhash
  have hget : get_checkpoint
      { upsert_camera st camera_id loc lat lon notes with
        runs := [{ r with status := "running", error_message := none, ended_at := none }] }
      r.run_id = .ok (some c) := by
    apply get_checkpoint_found
    · exact hrid
    · simp
    · show (upsert_camera st camera_id loc lat lon notes).checkpoints.find?
        (fun x => x.run_id == r.run_id) = some c
      rw [upsert_camera_checkpoints, hchk]
      simp [hcrid]
  have key : (runPipelineTrace st true video_path camera_id cfg source_video? loc lat lon
      notes start_time frames new_run_id now_iso emit_fail).2.2
      = (frameLoop cfg.vehicle_class_map
          (some (((c.bucket_index + 1) * cfg.bucket_seconds : ℤ) : ℚ))
          { agg := { bucket_seconds := cfg.bucket_seconds }, frames_processed := 0,
            detector_calls := [] } frames).1.detector_calls := by
    have hne : ¬ cfg.bucket_seconds ≤ 0 := not_le.mpr hbs
    simp only [runPipelineTrace]
    rw [if_neg (by simp), if_neg hne]
    simp only [hresolve, hget, Option.map]
    rcases hfl : frameLoop cfg.vehicle_class_map
        (some (((c.bucket_index + 1) * cfg.bucket_seconds : ℤ) : ℚ))
        { agg := { bucket_seconds := cfg.bucket_seconds }, frames_processed := 0,
          detector_calls := [] } frames with ⟨ls, exit⟩
    cases exit <;> rfl
  constructor
  · intro t ht
    rw [key] at ht
    exact frameLoop_calls_ge cfg.vehicle_class_map _ frames _ (by simp) t ht
  · intro hall
    rw [key, frameLoop_calls_eq cfg.vehicle_class_map _ frames _ hall]
    simp

/-- Witness for C2: the resume scenario of the test suite (checkpoint at
bucket 0, boundary 60s) skips the 10s frame and processes 70s and 130s. -/
theorem C2_resume_witness :
    (∀ t ∈ (runPipelineTrace c2State true "v.mp4" "CAM_001" {} none none none none none
        0 c2Frames "run-new" "T2" (fun _ => false)).2.2,
      (((c2Checkpoint.bucket_index + 1) * ({} : AppConfig).bucket_seconds : ℤ) : ℚ) ≤ t) ∧
    ((∀ f ∈ c2Frames, ∃ l, f.outcome = DetectOutcome.dets l) →
      (runPipelineTrace c2State true "v.mp4" "CAM_001" {} none none none none none
        0 c2Frames "run-new" "T2" (fun _ => false)).2.2
        = (c2Frames.filter (fun f =>
            decide ((((c2Checkpoint.bucket_index + 1) *
              ({} : AppConfig).bucket_seconds : ℤ) : ℚ) ≤ f.ts))).map FrameInput.ts) :=
  C2_resume_skips_committed_frames c2State "v.mp4" "CAM_001" {} none none none none none
    0 c2Frames "run-new" "T2" (fun _ => false) c2Run c2Checkpoint
    rfl (Or.inl rfl) rfl rfl rfl (by decide) rfl rfl (by decide)

/-! ## C3: re-invocation on a completed triple -/

/-- `resolveRun` short-circuits when a matching `completed` run exists. -/
theorem resolveRun_completed (st : DBState)
    (camera_id source_video config_hash new_run_id started_at : String)
    (h : st.runs.any (fun r => r.camera_id == camera_id &&
        r.source_video == source_video && r.config_hash == config_hash &&
        r.status == "completed") = true) :
    resolveRun st camera_id source_video config_hash new_run_id started_at
      = .ok (.alreadyCompleted, st) := by
  have hne : st.runs.filter (fun r => r.camera_id == camera_id &&
      r.source_video == source_video && r.config_hash == config_hash &&
      r.status == "completed") ≠ [] := by
    obtain ⟨x, hx, hp⟩ := List.any_eq_true.mp h
    exact List.ne_nil_of_mem (List.mem_filter.mpr ⟨hx, hp⟩)
  unfold resolveRun
  simp [hne]

/-- Counterexample for C3: re-invoking `run_pipeline` on a state holding a
`completed` run for the same triple, but with new camera metadata, is not
a no-op — the camera row is updated before the completed-run check. -/
theorem C3_completed_rerun_counterexample :
    (run_pipeline c3State true "v.mp4" "CAM_001" {} none (some "New yard")
        none none none 0 [] "run-new" "T2" (fun _ => false)).1 = .ok () ∧
    (run_pipeline c3State true "v.mp4" "CAM_001" {} none (some "New yard")
        none none none 0 [] "run-new" "T2" (fun _ => false)).2.cameras ≠ c3State.cameras := by
  have hany : (upsert_camera c3State "CAM_001" (some "New yard") none none none).runs.any
      (fun r => r.camera_id == "CAM_001" && r.source_video == "v.mp4" &&
        r.config_hash == stableConfigHash {} && r.status == "completed") = true := by
    rw [upsert_camera_runs]
    simp [c3State]
  have hres := resolveRun_completed
    (upsert_camera c3State "CAM_001" (some "New yard") none none none)
    "CAM_001" "v.mp4" (stableConfigHash {}) "run-new" "T2" hany
  have hkey : run_pipeline c3State true "v.mp4" "CAM_001" {} none (some "New yard")
      none none none 0 [] "run-new" "T2" (fun _ => false)
      = (.ok (), upsert_camera c3State "CAM_001" (some "New yard") none none none) := by
    simp only [run_pipeline, runPipelineTrace]
    rw [if_neg (by simp), if_neg (by decide)]
    simp only [Option.getD_none, hres]
  rw [hkey]
  refine ⟨rfl, ?_⟩
  decide

/-- C3 (amended): when a `completed` run already exists for the triple,
`run_pipeline` returns successfully and the final state is exactly the
input state with the camera-metadata upsert applied — runs, counts,
density, emissions and checkpoints are untouched, but the camera row is
updated (or inserted) before the completed-run check, so the invocation
is not a strict no-op on persisted state. -/
theorem C3_completed_rerun_returns_early
    (st : DBState) (video_path camera_id : String) (cfg : AppConfig)
    (source_video? loc : Option String) (lat lon : Option ℚ) (notes : Option String)
    (start_time : ℤ) (frames : List FrameInput)
    (new_run_id now_iso : String) (emit_fail : ℤ → Bool)
    (hbs : 0 < cfg.bucket_seconds)
    (hcompleted : st.runs.any (fun r => r.camera_id == camera_id &&
        r.source_video == (source_video?.getD video_path) &&
        r.config_hash == stableConfigHash cfg && r.status == "completed") = true) :
    run_pipeline st true video_path camera_id cfg source_video? loc lat lon notes
        start_time frames new_run_id now_iso emit_fail
      = (.ok (), upsert_camera st camera_id loc lat lon notes) := by
  have hany : (upsert_camera st camera_id loc lat lon notes).runs.any
      (fun r => r.camera_id == camera_id &&
        r.source_video == (source_video?.getD video_path) &&
        r.config_hash == stableConfigHash cfg && r.status == "completed") = true := by
    rw [upsert_camera_runs]; exact hcompleted
  have hres := resolveRun_completed (upsert_camera st camera_id loc lat lon notes)
    camera_id (source_video?.getD video_path) (stableConfigHash cfg) new_run_id now_iso hany
  simp only [run_pipeline, runPipelineTrace]
  rw [if_neg (by simp), if_neg (not_le.mpr hbs)]
  simp only [hres]

/-- Witness for C3: a completed `("CAM_001", "v.mp4", default-config)` run
short-circuits the re-invocation after the camera upsert. -/
theorem C3_completed_rerun_witness :
    run_pipeline c3State true "v.mp4" "CAM_001" {} none (some "Depot") none none none
        0 [] "run-new" "T2" (fun _ => false)
      = (.ok (), upsert_camera c3State "CAM_001" (some "Depot") none none none) :=
  C3_completed_rerun_returns_early c3State "v.mp4" "CAM_001" {} none (some "Depot")
    none none none 0 [] "run-new" "T2" (fun _ => false)
    (by decide) (by simp [c3State])

/-! ## C9: zero frames / zero buckets -/

/-- `resolveRun` on a state with no runs inserts a fresh `running` row. -/
theorem resolveRun_fresh (st : DBState)
    (camera_id source_video config_hash new_run_id started_at : String)
    (hruns : st.runs = []) (hnrid : new_run_id ≠ "") :
    resolveRun st camera_id source_video config_hash new_run_id started_at
      = .ok (.active new_run_id,
        { st with runs := [{ run_id := new_run_id, camera_id := camera_id,
                             source_video := source_video, config_hash := config_hash,
                             started_at := started_at, ended_at := none,
                             status := "running", error_message := none }] }) := by
  unfold resolveRun
  simp [hruns, hnrid, latestRunBy]

/-- `get_checkpoint` when no checkpoint row exists for the run. -/
theorem get_checkpoint_none (st : DBState) (run_id : String)
    (hrid : run_id ≠ "")
    (hexists : st.runs.any (fun r => r.run_id == run_id) = true)
    (hfind : st.checkpoints.find? (fun x => x.run_id == run_id) = none) :
    get_checkpoint st run_id = .ok none := by
  unfold get_checkpoint ensure_run_exists
  simp [hrid, hexists, hfind]

/-- Counterexample for C9: a resume invocation (matching `failed` run with
a committed checkpoint) that processes zero frames does not raise — it
returns successfully and marks the run `completed`, because both
zero-frames and zero-buckets guards are skipped when a resume checkpoint
is present. -/
theorem C9_zero_frames_counterexample :
    (run_pipeline c2State true "v.mp4" "CAM_001" {} none none none none none
        0 [] "run-new" "T2" (fun _ => false)).1 = .ok () ∧
    runStatus (run_pipeline c2State true "v.mp4" "CAM_001" {} none none none none none
        0 [] "run-new" "T2" (fun _ => false)).2 "run-0" = some "completed" := by
  have hres := resolveRun_resume (upsert_camera c2State "CAM_001" none none none none)
    "CAM_001" "v.mp4" (stableConfigHash {}) "run-new" "T2" c2Run
    (by rw [upsert_camera_runs]; rfl) (Or.inl rfl) rfl rfl rfl
  have hget : get_checkpoint
      { upsert_camera c2State "CAM_001" none none none none with
        runs := [{ c2Run with status := "running", error_message := none, ended_at := none }] }
      c2Run.run_id = .ok (some c2Checkpoint) := by
    apply get_checkpoint_found
    · decide
    · simp
    · show (upsert_camera c2State "CAM_001" none none none none).checkpoints.find?
        (fun x => x.run_id == c2Run.run_id) = some c2Checkpoint
      rw [upsert_camera_checkpoints]
      rfl
  constructor <;>
  · simp only [run_pipeline, runPipelineTrace]
    rw [if_neg (by simp), if_neg (by decide)]
    simp only [Option.getD_none, hres, hget, Option.map]
    decide

/-- C9 (amended): on a first-time invocation (no matching run, no
checkpoint), processing zero frames raises `No frames processed`, and a
frame stream whose (only) frame stops processing — counted as processed
but never aggregated, so zero buckets result after sampling — raises
`No buckets produced`; in both cases the fresh run is marked `failed`
with the message. On resume invocations both guards are skipped. -/
theorem C9_zero_guards_mark_failed
    (st : DBState) (video_path camera_id : String) (cfg : AppConfig)
    (source_video? loc : Option String) (lat lon : Option ℚ) (notes : Option String)
    (start_time : ℤ) (new_run_id now_iso : String) (emit_fail : ℤ → Bool)
    (hruns : st.runs = []) (hchk : st.checkpoints = [])
    (hnrid : new_run_id ≠ "") (hbs : 0 < cfg.bucket_seconds) :
    ((run_pipeline st true video_path camera_id cfg source_video? loc lat lon notes
        start_time [] new_run_id now_iso emit_fail).1
      = .error "No frames processed; check video path and sampling fps" ∧
     runStatus (run_pipeline st true video_path camera_id cfg source_video? loc lat lon
        notes start_time [] new_run_id now_iso emit_fail).2 new_run_id = some "failed" ∧
     runError (run_pipeline st true video_path camera_id cfg source_video? loc lat lon
        notes start_time [] new_run_id now_iso emit_fail).2 new_run_id
      = some (some "No frames processed; check video path and sampling fps")) ∧
    (∀ f : FrameInput, f.outcome = DetectOutcome.stop →
     (run_pipeline st true video_path camera_id cfg source_video? loc lat lon notes
        start_time [f] new_run_id now_iso emit_fail).1
      = .error "No buckets produced; check input data and bucket settings" ∧
     runStatus (run_pipeline st true video_path camera_id cfg source_video? loc lat lon
        notes start_time [f] new_run_id now_iso emit_fail).2 new_run_id = some "failed" ∧
     runError (run_pipeline st true video_path camera_id cfg source_video? loc lat lon
        notes start_time [f] new_run_id now_iso emit_fail).2 new_run_id
      = some (some "No buckets produced; check input data and bucket settings")) := by
  have hruns1 : (upsert_camera st camera_id loc lat lon notes).runs = [] := by
    rw [upsert_camera_runs]; exact hruns
  have hres := resolveRun_fresh (upsert_camera st camera_id loc lat lon notes)
    camera_id (source_video?.getD video_path) (stableConfigHash cfg) new_run_id now_iso
    hruns1 hnrid
  have hget : get_checkpoint
      { upsert_camera st camera_id loc lat lon notes with
        runs := [{ run_id := new_run_id, camera_id := camera_id,
                   source_video := source_video?.getD video_path,
                   config_hash := stableConfigHash cfg, started_at := now_iso,
                   ended_at := none, status := "running", error_message := none }] }
      new_run_id = .ok none := by
    apply get_checkpoint_none
    · exact hnrid
    · simp
    · show (upsert_camera st camera_id loc lat lon notes).checkpoints.find?
        (fun x => x.run_id == new_run_id) = none
      rw [upsert_camera_checkpoints, hchk]
      rfl
  constructor
  · refine ⟨?_, ?_, ?_⟩ <;>
    · simp only [run_pipeline, runPipelineTrace]
      rw [if_neg (by simp), if_neg (not_le.mpr hbs)]
      simp only [hres, hget, Option.map]
      simp [frameLoop, postLoop, markRunFailed, update_run_status, runStatus, runError]
  · intro f hf
    refine ⟨?_, ?_, ?_⟩ <;>
    · simp only [run_pipeline, runPipelineTrace]
      rw [if_neg (by simp), if_neg (not_le.mpr hbs)]
      simp only [hres, hget, Option.map]
      simp [frameLoop, hf, postLoop, FrameAggregator.finalize, List.insertionSort,
            markRunFailed, update_run_status, runStatus, runError]

/-- Witness for C9: against an empty database, an empty frame stream
yields the `No frames processed` error, a single stop-frame stream yields
the `No buckets produced` error, and both leave a `failed` run. -/
theorem C9_zero_guards_witness :
    ((run_pipeline {} true "v.mp4" "CAM_001" {} none none none none none
        0 [] "run-new" "T2" (fun _ => false)).1
      = .error "No frames processed; check video path and sampling fps" ∧
     runStatus (run_pipeline {} true "v.mp4" "CAM_001" {} none none none none none
        0 [] "run-new" "T2" (fun _ => false)).2 "run-new" = some "failed" ∧
     runError (run_pipeline {} true "v.mp4" "CAM_001" {} none none none none none
        0 [] "run-new" "T2" (fun _ => false)).2 "run-new"
      = some (some "No frames processed; check video path and sampling fps")) ∧
    ((run_pipeline {} true "v.mp4" "CAM_001" {} none none none none none
        0 [c9StopFrame] "run-new" "T2" (fun _ => false)).1
      = .error "No buckets produced; check input data and bucket settings" ∧
     runStatus (run_pipeline {} true "v.mp4" "CAM_001" {} none none none none none
        0 [c9StopFrame] "run-new" "T2" (fun _ => false)).2 "run-new" = some "failed" ∧
     runError (run_pipeline {} true "v.mp4" "CAM_001" {} none none none none none
        0 [c9StopFrame] "run-new" "T2" (fun _ => false)).2 "run-new"
      = some (some "No buckets produced; check input data and bucket settings")) := by
  have h := C9_zero_guards_mark_failed {} "v.mp4" "CAM_001" {} none none none none none
    0 "run-new" "T2" (fun _ => false) rfl rfl (by decide) (by decide)
  exact ⟨h.1, h.2 c9StopFrame rfl⟩

/-! ## C10: the configuration hash is canonical -/

/-- `charListLe` is total. -/
theorem charListLe_total (a : List Char) : ∀ b, charListLe a b = true ∨ charListLe b a = true := by
  induction a with
  | nil => intro b; exact Or.inl rfl
  | cons x xs ih =>
    intro b
    cases b with
    | nil => exact Or.inr rfl
    | cons y ys =>
      by_cases h1 : x.toNat < y.toNat
      · left; simp [charListLe, h1]
      · by_cases h2 : y.toNat < x.toNat
        · right; simp [charListLe, h2]
        · rcases ih ys with h | h
          · left; simp [charListLe, h1, h2, h]
          · right; simp [charListLe, h1, h2, h]

/-- `charListLe` is transitive. -/
theorem charListLe_trans : ∀ a b c : List Char,
    charListLe a b = true → charListLe b c = true → charListLe a c = true := by
  intro a
  induction a with
  | nil => intro b c _ _; rfl
  | cons x xs ih =>
    intro b c hab hbc
    cases b with
    | nil => simp [charListLe] at hab
    | cons y ys =>
      cases c with
      | nil => simp [charListLe] at hbc
      | cons z zs =>
        by_cases hxy : x.toNat < y.toNat
        · by_cases hyz : y.toNat < z.toNat
          · have hxz : x.toNat < z.toNat := Nat.lt_trans hxy hyz
            simp [charListLe, hxz]
          · by_cases hzy : z.toNat < y.toNat
            · simp [charListLe, hyz, hzy] at hbc
            · have hxz : x.toNat < z.toNat := by omega
              simp [charListLe, hxz]
        · by_cases hyx : y.toNat < x.toNat
          · simp [charListLe, hxy, hyx] at hab
          · have hab' : charListLe xs ys = true := by
              simpa [charListLe, hxy, hyx] using hab
            by_cases hyz : y.toNat < z.toNat
            · have hxz : x.toNat < z.toNat := by omega
              simp [charListLe, hxz]
            · by_cases hzy : z.toNat < y.toNat
              · simp [charListLe, hyz, hzy] at hbc
              · have hbc' : charListLe ys zs = true := by
                  simpa [charListLe, hyz, hzy] using hbc
                have hxz1 : ¬ x.toNat < z.toNat := by omega
                have hxz2 : ¬ z.toNat < x.toNat := by omega
                simp [charListLe, hxz1, hxz2, ih ys zs hab' hbc']

/-- `charListLe` is antisymmetric. -/
theorem charListLe_antisymm : ∀ a b : List Char,
    charListLe a b = true → charListLe b a = true → a = b := by
  intro a
  induction a with
  | nil =>
    intro b _ hba
    cases b with
    | nil => rfl
    | cons y ys => simp [charListLe] at hba
  | cons x xs ih =>
    intro b hab hba
    cases b with
    | nil => simp [charListLe] at hab
    | cons y ys =>
      by_cases hxy : x.toNat < y.toNat
      · simp [charListLe, hxy, Nat.lt_asymm hxy] at hba
      · by_cases hyx : y.toNat < x.toNat
        · simp [charListLe, hxy, hyx] at hab
        · have htn : x.toNat = y.toNat := by omega
          have hchar : x = y := by
            rcases x with ⟨⟨⟨x1, hx⟩⟩, px⟩
            rcases y with ⟨⟨⟨y1, hy⟩⟩, py⟩
            simp [Char.toNat, UInt32.toNat] at htn
            subst htn
            rfl
          have hab' : charListLe xs ys = true := by
            simpa [charListLe, hxy, hyx] using hab
          have hba' : charListLe ys xs = true := by
            simpa [charListLe, hxy, hyx] using hba
          rw [hchar, ih ys hab' hba']

theorem strLe_total (a b : String) : strLe a b = true ∨ strLe b a = true :=
  charListLe_total a.data b.data

theorem strLe_trans (a b c : String) :
    strLe a b = true → strLe b c = true → strLe a c = true :=
  charListLe_trans a.data b.data c.data

theorem strLe_antisymm (a b : String) :
    strLe a b = true → strLe b a = true → a = b := fun h1 h2 =>
  String.ext (charListLe_antisymm a.data b.data h1 h2)

/-- Sorting an association list by key is insensitive to the input
order when the keys are duplicate-free. -/
theorem insertionSort_key_congr {α : Type} (m1 m2 : List (String × α))
    (hperm : m1.Perm m2) (hnd : (m1.map Prod.fst).Nodup) :
    List.insertionSort (fun a b => strLe a.1 b.1 = true) m1
      = List.insertionSort (fun a b => strLe a.1 b.1 = true) m2 := by
  haveI : IsTotal (String × α) (fun a b => strLe a.1 b.1 = true) :=
    ⟨fun a b => strLe_total a.1 b.1⟩
  haveI : IsTrans (String × α) (fun a b => strLe a.1 b.1 = true) :=
    ⟨fun a b c => strLe_trans a.1 b.1 c.1⟩
  haveI : IsAntisymm (String × α) (fun a b => strLt a.1 b.1 = true) := by
    constructor
    intro a b hab hba
    exfalso
    have h1 : strLe a.1 b.1 = true ∧ ¬ a.1 = b.1 := by simpa [strLt] using hab
    have h2 : strLe b.1 a.1 = true ∧ ¬ b.1 = a.1 := by simpa [strLt] using hba
    exact h1.2 (strLe_antisymm a.1 b.1 h1.1 h2.1)
  have hstrict : ∀ l : List (String × α),
      l.Sorted (fun a b => strLe a.1 b.1 = true) → (l.map Prod.fst).Nodup →
      l.Sorted (fun a b => strLt a.1 b.1 = true) := by
    intro l hs hnd'
    have hne : l.Pairwise (fun a b => a.1 ≠ b.1) := by
      have := List.pairwise_map.mp hnd'
      exact this
    exact (List.Pairwise.and hs hne).imp (by
      intro a b hh
      simp [strLt, hh.1, hh.2])
  have hp : (List.insertionSort (fun a b => strLe a.1 b.1 = true) m1).Perm
      (List.insertionSort (fun a b => strLe a.1 b.1 = true) m2) :=
    (List.perm_insertionSort _ m1).trans (hperm.trans (List.perm_insertionSort _ m2).symm)
  have hnd1 : ((List.insertionSort (fun a b => strLe a.1 b.1 = true) m1).map Prod.fst).Nodup :=
    (((List.perm_insertionSort _ m1).map Prod.fst).nodup_iff).mpr hnd
  have hnd2 : ((List.insertionSort (fun a b => strLe a.1 b.1 = true) m2).map Prod.fst).Nodup := by
    refine (((List.perm_insertionSort _ m2).map Prod.fst).nodup_iff).mpr ?_
    exact ((hperm.map Prod.fst).nodup_iff).mp hnd
  exact List.eq_of_perm_of_sorted hp
    (hstrict _ (List.sorted_insertionSort _ m1) hnd1)
    (hstrict _ (List.sorted_insertionSort _ m2) hnd2)

/-- Dict fields encode identically for any insertion order of the same
entries. -/
theorem jsonDict_congr {α : Type} (f : α → String) (m1 m2 : List (String × α))
    (h : dictEquiv m1 m2) : jsonDict f m1 = jsonDict f m2 := by
  obtain ⟨hperm, hnd⟩ := h
  unfold jsonDict
  rw [insertionSort_key_congr m1 m2 hperm hnd]

/-- Structurally equal configurations serialize to the same canonical
JSON. -/
theorem encodeAppConfig_congr (c1 c2 : AppConfig) (h : AppConfig.structEq c1 c2) :
    encodeAppConfig c1 = encodeAppConfig c2 := by
  obtain ⟨h1, h2, h3, h4, h5, h6, h7, h8, h9, h10, h11, h12, h13⟩ := h
  have hden : encodeDensity c1.density = encodeDensity c2.density := by
    unfold encodeDensity
    rw [h5, h6, h7, h8, jsonDict_congr _ _ _ h9]
  have hemi : encodeEmissions c1.emissions = encodeEmissions c2.emissions := by
    unfold encodeEmissions
    rw [h11, jsonDict_congr _ _ _ h10]
  unfold encodeAppConfig
  rw [h1, h2, h4, h12, h13, hden, hemi, jsonDict_congr _ _ _ h3]

set_option maxRecDepth 200000 in
set_option maxHeartbeats 4000000 in
theorem stableConfigHash_default :
    stableConfigHash {} = defaultConfigHashHex := by decide

set_option maxRecDepth 200000 in
set_option maxHeartbeats 4000000 in
theorem dbPathVariant_hash_ne :
    stableConfigHash dbPathVariant ≠ defaultConfigHashHex := by decide

set_option maxRecDepth 200000 in
set_option maxHeartbeats 4000000 in
theorem realtimeVariant_hash_ne :
    stableConfigHash realtimeVariant ≠ defaultConfigHashHex := by decide

set_option maxRecDepth 200000 in
set_option maxHeartbeats 4000000 in
theorem visualizeVariant_hash_ne :
    stableConfigHash visualizeVariant ≠ defaultConfigHashHex := by decide

/-- C10: the effective-configuration hash is canonical — structurally
equal configurations (dict key insertion order ignored) always hash to
the same digest, because the serialization sorts keys; and the hash
covers the entire `AppConfig`, so changing `data_paths.db_path`,
`realtime.enabled` or `detector.visualize` each yields a different
digest than the default configuration. -/
theorem C10_config_hash_canonical (c1 c2 : AppConfig) (h : AppConfig.structEq c1 c2) :
    stableConfigHash c1 = stableConfigHash c2 ∧
    stableConfigHash dbPathVariant ≠ stableConfigHash {} ∧
    stableConfigHash realtimeVariant ≠ stableConfigHash {} ∧
    stableConfigHash visualizeVariant ≠ stableConfigHash {} :=
  ⟨by unfold stableConfigHash; rw [encodeAppConfig_congr c1 c2 h],
   fun hc => dbPathVariant_hash_ne (hc.trans stableConfigHash_default),
   fun hc => realtimeVariant_hash_ne (hc.trans stableConfigHash_default),
   fun hc => visualizeVariant_hash_ne (hc.trans stableConfigHash_default)⟩

/-- Witness for C10: reordering the `vehicle_class_map` entries leaves
the digest unchanged. -/
theorem C10_config_hash_witness :
    stableConfigHash classMapShuffled = stableConfigHash {} ∧
    stableConfigHash dbPathVariant ≠ stableConfigHash {} ∧
    stableConfigHash realtimeVariant ≠ stableConfigHash {} ∧
    stableConfigHash visualizeVariant ≠ stableConfigHash {} :=
  C10_config_hash_canonical classMapShuffled {}
    ⟨rfl, rfl, ⟨by decide, by decide⟩, rfl, rfl, rfl, rfl, rfl,
     ⟨by decide, by decide⟩, ⟨by decide, by decide⟩, rfl, rfl, rfl⟩

end App
